import Mathlib

/-!
# otppc: the SMS dispatch pipeline of `main.go`

A shallow embedding of `main.go`.  The program is a set of goroutines that
share a buffered channel (`modemQueue`), a broadcast channel (`shutdown`), the
slice `modems.ModemIds`, a `sync.WaitGroup` and the channel `done`.

* Sequential code (the body of a loop, one `select`) is a Lean function.
* The goroutines together are a transition system: `State` holds the shared
  objects and one program counter per goroutine, `Action` names which
  goroutine moves and carries what the outside world answers at that step (the
  result of `getMessage`, of `sendSMS`, of the `mmcli` commands, and which
  ready case a `select` picks), and `step` is one atomic move.  `run` folds
  `step` over a schedule, so every interleaving is a list of actions.
* `fmt.Printf` and `time.Sleep` change neither control flow nor shared state
  and are left out; a step that sleeps only moves the program counter.
* Go errors are strings; `nil` is `none`.
* A step is one access to a shared object together with the local statements
  next to it: the receive of a worker and the call of `sendSMS` on the
  received message (only a `Printf` lies between them) are one step, the
  return of `sendSMS` is another; the test of line 64 and the evaluation of
  the range expression of line 70 are one step; one iteration of the loop of
  `enableModems`, whose only shared write appends to `modems.ModemIds`, is one
  step.
* The transition system starts when `main` has started its goroutines and
  `startWorkers` has added the workers to the wait group and started them.
-/

namespace Otppc

/-! ## Data model -/

/-- The struct `message` (lines 17-21). -/
structure message where
  PhoneNumber : String
  MessageText : String
  ModemID : String
deriving DecidableEq, Repr

/-- The assignment `msg.ModemID = modemID` (line 72). -/
def message.setModemID (msg : message) (modemID : String) : message :=
  { PhoneNumber := msg.PhoneNumber, MessageText := msg.MessageText, ModemID := modemID }

/-- A buffered Go channel of messages, as created by `make(chan message, 100)`:
the buffer in FIFO order, the capacity, and whether `close` has been called. -/
structure Chan where
  buf : List message
  cap : Nat
  closed : Bool
deriving DecidableEq, Repr

/-- A send `modemQueue <- msg` can proceed when the buffer has room; on a closed
channel it proceeds too (and panics). -/
def Chan.sendReady (q : Chan) : Bool :=
  q.closed || decide (q.buf.length < q.cap)

/-- A receive `<-modemQueue` can proceed when a message is buffered or the
channel is closed. -/
def Chan.recvReady (q : Chan) : Bool :=
  q.closed || !q.buf.isEmpty

/-! ## The producer (lines 55-94) -/

/-- How one execution of the loop body of lines 70-89 ends. -/
inductive Flow where
  /-- `getMessage` failed: the `continue` of line 76 -/
  | skipped
  /-- `case modemQueue <- msg` ran (lines 80-81) -/
  | enqueued
  /-- the `default` ran (lines 85-87): nothing was sent, the message is gone -/
  | full
  /-- `case <-shutdown` ran: `close(modemQueue); return` (lines 82-84) -/
  | returned
  /-- a run-time panic (send on, or close of, a closed channel) -/
  | panicked
deriving DecidableEq, Repr

/-- The statement `close(modemQueue)`: `none` is the panic of closing a closed
channel. -/
def Chan.close (q : Chan) : Option Chan :=
  if q.closed then none else some { q with closed := true }

/-- The branch `case modemQueue <- msg` (lines 80-81). -/
def sendCase (q : Chan) (msg : message) : Chan × Flow :=
  if q.closed then (q, Flow.panicked) else ({ q with buf := q.buf ++ [msg] }, Flow.enqueued)

/-- The branch `case <-shutdown` (lines 82-84): `close(modemQueue); return`. -/
def shutdownCase (q : Chan) : Chan × Flow :=
  match q.close with
  | some q1 => (q1, Flow.returned)
  | none => (q, Flow.panicked)

/-- The `select` of lines 79-88.  A Go `select` runs one of the cases that can
proceed, chosen by the runtime when several can, and the `default` only when
none can.  `pick` is the choice of the runtime when both the send and the
receive from `shutdown` can proceed: `true` is the send. -/
def enqueueSelect (q : Chan) (shutdown : Bool) (msg : message) (pick : Bool) : Chan × Flow :=
  match q.sendReady, shutdown with
  | true, true => if pick then sendCase q msg else shutdownCase q
  | true, false => sendCase q msg
  | false, true => shutdownCase q
  | false, false => (q, Flow.full)

/-- The body of the `for _, modemID := range modems.ModemIds` loop (lines
71-88).  `src` is what the call `getMessage()` returned. -/
def passBody (q : Chan) (shutdown : Bool) (modemID : String)
    (src : message × Option String) (pick : Bool) : Chan × Flow :=
  match src.2 with
  | some _ => (q, Flow.skipped)
  | none => enqueueSelect q shutdown (src.1.setModemID modemID) pick

/-- The function `getMessage` of lines 105-110: a stub with a fixed answer. -/
def getMessage : message × Option String :=
  ({ PhoneNumber := "+99361041499", MessageText := "Hello, world!", ModemID := "" }, none)

/-- The predicate `unicode.IsSpace`, used by `strings.Fields` and
`strings.TrimSpace`. -/
def isSpace (c : Char) : Bool :=
  let n := c.toNat
  n == 9 || n == 10 || n == 11 || n == 12 || n == 13 || n == 32 || n == 0x85 || n == 0xA0 ||
  n == 0x1680 || (decide (0x2000 ≤ n) && decide (n ≤ 0x200A)) || n == 0x2028 || n == 0x2029 ||
  n == 0x202F || n == 0x205F || n == 0x3000

/-- The call `strings.SplitSeq(output, "\n")`, on the characters of the output:
the pieces between line feeds (always at least one piece). -/
def splitLines : List Char → List (List Char)
  | [] => [[]]
  | c :: cs =>
    if c = '\n' then [] :: splitLines cs
    else
      match splitLines cs with
      | [] => [[c]]
      | l :: ls => (c :: l) :: ls

/-- The call `strings.Contains(line, sub)`. -/
def containsSub (sub : List Char) : List Char → Bool
  | [] => sub.isEmpty
  | c :: cs => sub.isPrefixOf (c :: cs) || containsSub sub cs

/-- The call `strings.Fields(line)`: the maximal runs of non-space characters. -/
def fields : List Char → List (List Char)
  | [] => []
  | c :: cs =>
    if isSpace c then fields cs
    else
      match cs with
      | [] => [[c]]
      | d :: _ =>
        if isSpace d then [c] :: fields cs
        else
          match fields cs with
          | [] => [[c]]
          | f :: fs => (c :: f) :: fs

/-- The call `strings.TrimSpace`. -/
def trimSpace (s : List Char) : List Char :=
  ((s.dropWhile isSpace).reverse.dropWhile isSpace).reverse

/-- The modem id read from one line of the listing (lines 235-239), if any. -/
def lineModemID (line : List Char) : Option String :=
  if containsSub "Modem".toList line then
    match fields line with
    | [] => none
    | p :: _ => some (String.mk (trimSpace p))
  else none

/-- The identifiers obtained from a listing, in the order of its lines. -/
def parseModemIDs (output : String) : List String :=
  (splitLines output.toList).filterMap lineModemID

/-- The registry update of lines 240-244:
`if !slices.Contains(modems.ModemIds, modemID) { append }`. -/
def merge (ModemIds : List String) (modemID : String) : List String :=
  if ModemIds.contains modemID then ModemIds else ModemIds ++ [modemID]

/-- The enable pass of lines 254-265: the modem ids for which the enable
command was run, and the error that ended the pass, if any. -/
def enablePass (enable : String → Option String) : List String → List String × Option String
  | [] => ([], none)
  | modemID :: rest =>
    match enable modemID with
    | some e => ([modemID], some e)
    | none => (modemID :: (enablePass enable rest).1, (enablePass enable rest).2)

/-- What the outside world answers during one iteration of `enableModems`: the
error and the output of `mmcli -L`, and the error of the enable command of each
modem. -/
structure DiscEnv where
  listErr : Option String
  output : String
  enable : String → Option String

/-- The result of one iteration of the loop of `enableModems`: the registry,
the enable commands run, and the error returned (`none`: the iteration reached
the sleep of line 267 and the loop goes on). -/
structure DiscResult where
  ModemIds : List String
  enabled : List String
  err : Option String

/-- One iteration of the `for` loop of `enableModems` (lines 212-268). -/
def enableModemsIter (shutdown : Bool) (ModemIds : List String) (env : DiscEnv) : DiscResult :=
  if shutdown then { ModemIds := ModemIds, enabled := [], err := some "shutdown" }
  else
    match env.listErr with
    | some e => { ModemIds := ModemIds, enabled := [], err := some e }
    | none =>
      if env.output = "No modems were found\n" then
        { ModemIds := ModemIds, enabled := [], err := some "no modems were found" }
      else
        let ids := (parseModemIDs env.output).foldl merge ModemIds
        if ids.length = 0 then
          { ModemIds := ids, enabled := [], err := some "no modems were found" }
        else
          { ModemIds := ids, enabled := (enablePass env.enable ids).1,
            err := (enablePass env.enable ids).2 }

/-! ## The goroutines as a transition system -/

/-- Where the producer goroutine (lines 55-94) stands. -/
inductive ProducerPC where
  /-- at the `select` of line 58 -/
  | top
  /-- inside the `for ... range` of line 70, with the modem ids still to visit
  (the range expression is evaluated once, when the loop starts) -/
  | pass (rest : List String)
  /-- it has returned (and the deferred `close(done)` has run) -/
  | exited
  /-- it has panicked: the process has crashed -/
  | panicked
deriving DecidableEq, Repr

/-- Where a worker goroutine `smsWorker` (lines 124-160) stands. -/
inductive WorkerPC where
  /-- at the `select` of line 129 -/
  | idle
  /-- a message was received at line 144 and `sendSMS` (line 152) is running -/
  | sending (msg : message)
  /-- at the `for msg := range modemQueue` of line 132, waiting to receive -/
  | draining
  /-- a message was received by the range and `sendSMS` (line 134) is running -/
  | drainSending (msg : message)
  /-- it has returned (and the deferred `shutdownWaitGroup.Done()` has run) -/
  | exited
deriving DecidableEq, Repr

/-- Where `main` stands after it has started the goroutines (lines 96-101). -/
inductive MainPC where
  /-- blocked on `<-done` (line 97) -/
  | waitDone
  /-- blocked on `shutdownWaitGroup.Wait()` (line 99) -/
  | waitWorkers
  /-- `Wait` has returned: shutdown complete, the process ends -/
  | complete
deriving DecidableEq, Repr

/-- Where the goroutine `enableModems` stands. -/
inductive DiscoveryPC where
  /-- at the `select` of line 212 -/
  | running
  /-- it has returned this error -/
  | returned (err : String)
deriving DecidableEq, Repr

/-- The shared objects, the program counters, and a record of what has
happened (`enqueued`, `handed`, `sent`, `closes`, `enableCmds` are written
only, never read, by the program). -/
structure State where
  /-- the channel `modemQueue` -/
  modemQueue : Chan
  /-- whether the channel `shutdown` has been closed -/
  shutdown : Bool
  /-- whether the channel `done` has been closed -/
  done : Bool
  /-- the slice `modems.ModemIds` -/
  ModemIds : List String
  /-- the counter of `shutdownWaitGroup` -/
  wg : Int
  producer : ProducerPC
  workers : List WorkerPC
  discovery : DiscoveryPC
  mainPC : MainPC
  /-- the messages put on `modemQueue`, in order -/
  enqueued : List message
  /-- the messages received from `modemQueue` by a worker, which calls
  `sendSMS` on them at once, in order -/
  handed : List message
  /-- the calls of `sendSMS` that have returned, with the error returned -/
  sent : List (message × Option String)
  /-- how many times `close(modemQueue)` was executed -/
  closes : Nat
  /-- the modem ids for which the enable command was run -/
  enableCmds : List String
deriving DecidableEq, Repr

/-- One atomic move of one goroutine, with the answers of the outside world. -/
inductive Action where
  /-- the signal handler of lines 37-43 receives a signal: `close(shutdown)` -/
  | signal
  /-- one iteration of the loop of `enableModems` -/
  | discovery (env : DiscEnv)
  /-- one move of the producer; `src` is the answer of `getMessage` and `pick`
  the choice of the `select` of line 79, where the move uses them -/
  | producer (src : message × Option String) (pick : Bool)
  /-- one move of worker `i`; `pick` is the choice of the `select` of line 129
  (`true`: the receive) and `sendErr` what `sendSMS` returns, where the move
  uses them -/
  | worker (i : Nat) (pick : Bool) (sendErr : Option String)
  /-- one move of `main` -/
  | main

/-- The state when `main` has started the goroutines (line 94): an empty
queue of capacity `cap`, `workerCount` workers added to the wait group by
`startWorkers` and started, nothing signalled.  The program has `cap = 100`
and `workerCount = 3`. -/
def init (cap workerCount : Nat) : State :=
  { modemQueue := { buf := [], cap := cap, closed := false }
    shutdown := false
    done := false
    ModemIds := []
    wg := workerCount
    producer := ProducerPC.top
    workers := List.replicate workerCount WorkerPC.idle
    discovery := DiscoveryPC.running
    mainPC := MainPC.waitDone
    enqueued := []
    handed := []
    sent := []
    closes := 0
    enableCmds := [] }

/-- A move of the producer goroutine (lines 57-93). -/
def stepProducer (s : State) (src : message × Option String) (pick : Bool) : State :=
  match s.producer with
  | ProducerPC.top =>
    if s.shutdown then
      match s.modemQueue.close with
      | some q =>
        { s with modemQueue := q, closes := s.closes + 1, producer := ProducerPC.exited,
                 done := true }
      | none => { s with producer := ProducerPC.panicked }
    else if s.ModemIds.length = 0 then s
    else { s with producer := ProducerPC.pass s.ModemIds }
  | ProducerPC.pass [] => { s with producer := ProducerPC.top }
  | ProducerPC.pass (modemID :: rest) =>
    match passBody s.modemQueue s.shutdown modemID src pick with
    | (q, Flow.enqueued) =>
      { s with modemQueue := q, producer := ProducerPC.pass rest,
               enqueued := s.enqueued ++ [src.1.setModemID modemID] }
    | (q, Flow.returned) =>
      { s with modemQueue := q, closes := s.closes + 1, producer := ProducerPC.exited,
               done := true }
    | (_, Flow.panicked) => { s with producer := ProducerPC.panicked }
    | (q, _) => { s with modemQueue := q, producer := ProducerPC.pass rest }
  | ProducerPC.exited => s
  | ProducerPC.panicked => s

/-- The receive of a worker from `modemQueue` (line 144, and the range of line
132): with a buffered message the worker takes the oldest one and calls
`sendSMS` on it (`busy` is its program counter then); with none and the
channel closed the worker returns and the deferred `Done` runs; with none and
the channel open it stays blocked. -/
def workerRecv (s : State) (i : Nat) (busy : message → WorkerPC) : State :=
  match s.modemQueue.buf with
  | msg :: rest =>
    { s with modemQueue := { s.modemQueue with buf := rest },
             workers := s.workers.set i (busy msg),
             handed := s.handed ++ [msg] }
  | [] =>
    if s.modemQueue.closed then
      { s with workers := s.workers.set i WorkerPC.exited, wg := s.wg - 1 }
    else s

/-- A move of worker `i` (lines 128-159). -/
def stepWorker (s : State) (i : Nat) (pick : Bool) (sendErr : Option String) : State :=
  match s.workers[i]? with
  | none => s
  | some WorkerPC.idle =>
    match s.shutdown, s.modemQueue.recvReady with
    | false, false => s
    | true, false => { s with workers := s.workers.set i WorkerPC.draining }
    | false, true => workerRecv s i WorkerPC.sending
    | true, true =>
      if pick then workerRecv s i WorkerPC.sending
      else { s with workers := s.workers.set i WorkerPC.draining }
  | some (WorkerPC.sending msg) =>
    { s with workers := s.workers.set i WorkerPC.idle, sent := s.sent ++ [(msg, sendErr)] }
  | some WorkerPC.draining => workerRecv s i WorkerPC.drainSending
  | some (WorkerPC.drainSending msg) =>
    { s with workers := s.workers.set i WorkerPC.draining, sent := s.sent ++ [(msg, sendErr)] }
  | some WorkerPC.exited => s

/-- A move of the goroutine `enableModems`: one iteration of its loop. -/
def stepDiscovery (s : State) (env : DiscEnv) : State :=
  match s.discovery with
  | DiscoveryPC.returned _ => s
  | DiscoveryPC.running =>
    let r := enableModemsIter s.shutdown s.ModemIds env
    { s with ModemIds := r.ModemIds, enableCmds := s.enableCmds ++ r.enabled,
             discovery := match r.err with
               | some e => DiscoveryPC.returned e
               | none => DiscoveryPC.running }

/-- A move of `main` (lines 97-101). -/
def stepMain (s : State) : State :=
  match s.mainPC with
  | MainPC.waitDone => if s.done then { s with mainPC := MainPC.waitWorkers } else s
  | MainPC.waitWorkers => if s.wg = 0 then { s with mainPC := MainPC.complete } else s
  | MainPC.complete => s

/-- The process is over: `main` has returned, or a goroutine has panicked. -/
def State.halted (s : State) : Bool :=
  decide (s.mainPC = MainPC.complete) || decide (s.producer = ProducerPC.panicked)

/-- One step of the program. -/
def step (s : State) (a : Action) : State :=
  if s.halted then s
  else
    match a with
    | Action.signal => { s with shutdown := true }
    | Action.discovery env => stepDiscovery s env
    | Action.producer src pick => stepProducer s src pick
    | Action.worker i pick sendErr => stepWorker s i pick sendErr
    | Action.main => stepMain s

/-- The state after a schedule. -/
def run (s : State) (as : List Action) : State :=
  as.foldl step s

/-- The messages on which a call of `sendSMS` is running. -/
def inFlight : List WorkerPC → List message
  | [] => []
  | WorkerPC.sending msg :: ws => msg :: inFlight ws
  | WorkerPC.drainSending msg :: ws => msg :: inFlight ws
  | _ :: ws => inFlight ws

/-- The number of workers that have not returned. -/
def liveWorkers : List WorkerPC → Nat
  | [] => 0
  | WorkerPC.exited :: ws => liveWorkers ws
  | _ :: ws => liveWorkers ws + 1

/-- What holds in every state the program can reach. -/
structure Inv (s : State) : Prop where
  /-- what was enqueued is what the workers took followed by what is buffered -/
  fifo : s.enqueued = s.handed ++ s.modemQueue.buf
  /-- the queue is closed exactly when the producer has returned -/
  closedIff : s.modemQueue.closed = true ↔ s.producer = ProducerPC.exited
  /-- `close(modemQueue)` ran once if the queue is closed, never otherwise -/
  closesEq : s.closes = if s.modemQueue.closed then 1 else 0
  /-- the producer has not panicked -/
  noPanic : s.producer ≠ ProducerPC.panicked
  /-- `done` is closed exactly when the producer has returned -/
  doneIff : s.done = true ↔ s.producer = ProducerPC.exited
  /-- the wait group counts the workers that have not returned -/
  wgLive : s.wg = (liveWorkers s.workers : Int)
  /-- a worker returns only from a closed and empty queue, which stays so -/
  exitedEmpty : WorkerPC.exited ∈ s.workers → s.modemQueue.closed = true ∧ s.modemQueue.buf = []
  /-- every message taken by a worker is sent or being sent -/
  sentPerm : (s.sent.map Prod.fst ++ inFlight s.workers).Perm s.handed
  /-- `main` passes `<-done` only once `done` is closed -/
  mainDone : s.mainPC ≠ MainPC.waitDone → s.done = true
  /-- `Wait` returns only with the counter at zero -/
  mainWait : s.mainPC = MainPC.complete → s.wg = 0

/-- A schedule that fills a queue of capacity 2: discovery registers three
modems, the producer starts a pass and enqueues for the first two. -/
def fillTwo : List Action :=
  [Action.discovery ⟨none, "/Modem/0 a\n/Modem/1 b\n/Modem/2 c\n", fun _ => none⟩,
   Action.producer getMessage true,
   Action.producer (⟨"+1", "a", ""⟩, none) true,
   Action.producer (⟨"+2", "b", ""⟩, none) true]

/-- A schedule after which worker 0 is inside `sendSMS`: discovery registers
one modem, the producer enqueues the message of `getMessage` for it, worker 0
receives it. -/
def oneInFlight : List Action :=
  [Action.discovery ⟨none, "/Modem/0 a\n", fun _ => none⟩,
   Action.producer getMessage true,
   Action.producer getMessage true,
   Action.worker 0 true none]

/-- What a step does to the queue and to its two records: nothing, or one
message is appended to the buffer and to `enqueued`, or the oldest message
leaves the buffer and is appended to `handed`. -/
def QueueEffect (s t : State) : Prop :=
  (t.modemQueue.buf = s.modemQueue.buf ∧ t.enqueued = s.enqueued ∧ t.handed = s.handed) ∨
  (∃ m, t.modemQueue.buf = s.modemQueue.buf ++ [m] ∧ t.enqueued = s.enqueued ++ [m] ∧
    t.handed = s.handed) ∨
  (∃ m, s.modemQueue.buf = m :: t.modemQueue.buf ∧ t.enqueued = s.enqueued ∧
    t.handed = s.handed ++ [m])

/-- The `k`-th message of the examples: the answer of `getMessage` with the
modem id of the `k`-th modem. -/
def msgFor (modemID : String) : message :=
  getMessage.1.setModemID modemID

/-- A schedule up to the signal: discovery registers five modems, the producer
makes a pass and enqueues a message for each, then shutdown is signalled with
the five messages buffered and the three workers waiting. -/
def fiveQueued : List Action :=
  [Action.discovery
     ⟨none, "/Modem/0 a\n/Modem/1 b\n/Modem/2 c\n/Modem/3 d\n/Modem/4 e\n", fun _ => none⟩,
   Action.producer getMessage true,
   Action.producer getMessage true,
   Action.producer getMessage true,
   Action.producer getMessage true,
   Action.producer getMessage true,
   Action.producer getMessage true,
   Action.signal]

/-- A schedule after the signal: the producer ends its pass, observes
shutdown and closes the queue; the three workers observe shutdown and drain:
each takes a message, workers 0 and 1 finish theirs and take the last two,
worker 2 finishes its own, finds the queue closed and empty and returns. -/
def drainRace : List Action :=
  [Action.producer getMessage true,
   Action.producer getMessage true,
   Action.worker 0 false none,
   Action.worker 1 false none,
   Action.worker 2 false none,
   Action.worker 0 false none,
   Action.worker 1 false none,
   Action.worker 2 false none,
   Action.worker 0 false none,
   Action.worker 0 false none,
   Action.worker 1 false none,
   Action.worker 1 false none,
   Action.worker 2 false none,
   Action.worker 2 false none]

/-- A schedule that ends the drain: workers 0 and 1 finish their calls, find
the queue closed and empty and return; `main` passes `<-done` and `Wait`. -/
def drainEnd : List Action :=
  [Action.worker 0 false none,
   Action.worker 0 false none,
   Action.worker 1 false none,
   Action.worker 1 false none,
   Action.main,
   Action.main]

/-- How many moves the producer needs at most, once shutdown is signalled,
to reach a `case <-shutdown`: from the `select` of line 58 one; inside the
pass one for each modem id still to visit, one to leave the loop and one at
line 58. -/
def pending : ProducerPC → Nat
  | ProducerPC.top => 1
  | ProducerPC.pass rest => rest.length + 2
  | ProducerPC.exited => 0
  | ProducerPC.panicked => 0

/-- The number of moves of the producer in a schedule. -/
def producerMoves : List Action → Nat
  | [] => 0
  | Action.producer _ _ :: as => producerMoves as + 1
  | _ :: as => producerMoves as

/-- The state after `close(modemQueue); return` and the deferred
`close(done)`. -/
def closedAndReturned (s : State) : State :=
  { s with modemQueue := { buf := s.modemQueue.buf, cap := s.modemQueue.cap, closed := true },
           closes := 1, producer := ProducerPC.exited, done := true }

/-! ## The registry -/

theorem merge_of_mem {r : List String} {id : String} (h : id ∈ r) : merge r id = r := by
  simp [merge, h]

theorem merge_of_not_mem {r : List String} {id : String} (h : id ∉ r) :
    merge r id = r ++ [id] := by
  simp [merge, h]

theorem mem_merge_self (r : List String) (id : String) : id ∈ merge r id := by
  by_cases h : id ∈ r
  · rw [merge_of_mem h]; exact h
  · rw [merge_of_not_mem h]; simp

theorem nodup_merge {r : List String} (id : String) (h : r.Nodup) : (merge r id).Nodup := by
  by_cases hm : id ∈ r
  · rw [merge_of_mem hm]; exact h
  · rw [merge_of_not_mem hm]
    refine List.Nodup.append h (List.nodup_singleton id) ?_
    intro x hx hx1
    rw [List.mem_singleton] at hx1
    exact hm (hx1 ▸ hx)

theorem nodup_foldl_merge (ids : List String) :
    ∀ r : List String, r.Nodup → (ids.foldl merge r).Nodup := by
  induction ids with
  | nil => intro r h; exact h
  | cons id ids ih => intro r h; exact ih (merge r id) (nodup_merge id h)

/-! ## The producer: one select, one pass -/

theorem enqueueSelect_full {q : Chan} (msg : message) (pick : Bool)
    (hopen : q.closed = false) (hfull : q.buf.length = q.cap) :
    enqueueSelect q false msg pick = (q, Flow.full) := by
  simp [enqueueSelect, Chan.sendReady, hopen, hfull]

theorem passBody_source_error (q : Chan) (shutdown : Bool) (modemID : String)
    (src : message × Option String) (pick : Bool) {e : String} (he : src.2 = some e) :
    passBody q shutdown modemID src pick = (q, Flow.skipped) := by
  simp [passBody, he]

theorem passBody_source_ok (q : Chan) (shutdown : Bool) (modemID : String)
    (src : message × Option String) (pick : Bool) (he : src.2 = none) :
    passBody q shutdown modemID src pick
      = enqueueSelect q shutdown (src.1.setModemID modemID) pick := by
  simp [passBody, he]

theorem passBody_cases (q : Chan) (shutdown : Bool) (modemID : String)
    (src : message × Option String) (pick : Bool) (hopen : q.closed = false) :
    passBody q shutdown modemID src pick = (q, Flow.skipped) ∨
    passBody q shutdown modemID src pick = (q, Flow.full) ∨
    passBody q shutdown modemID src pick
      = ({ q with buf := q.buf ++ [src.1.setModemID modemID] }, Flow.enqueued) ∨
    (shutdown = true ∧
      passBody q shutdown modemID src pick = ({ q with closed := true }, Flow.returned)) := by
  cases he : src.2 with
  | some e => left; exact passBody_source_error q shutdown modemID src pick he
  | none =>
    rw [passBody_source_ok q shutdown modemID src pick he]
    unfold enqueueSelect
    cases hr : q.sendReady <;> cases shutdown <;> cases pick <;>
      simp [sendCase, shutdownCase, Chan.close, hopen]

theorem liveWorkers_append (l1 l2 : List WorkerPC) :
    liveWorkers (l1 ++ l2) = liveWorkers l1 + liveWorkers l2 := by
  induction l1 with
  | nil => simp [liveWorkers]
  | cons w l1 ih => cases w <;> simp [liveWorkers, ih] <;> omega

theorem inFlight_append (l1 l2 : List WorkerPC) :
    inFlight (l1 ++ l2) = inFlight l1 ++ inFlight l2 := by
  induction l1 with
  | nil => simp [inFlight]
  | cons w l1 ih => cases w <;> simp [inFlight, ih]

theorem set_split {α : Type} :
    ∀ (ws : List α) (i : Nat) (old : α), ws[i]? = some old →
      ∀ new : α, ∃ l1 l2, ws = l1 ++ old :: l2 ∧ ws.set i new = l1 ++ new :: l2 := by
  intro ws
  induction ws with
  | nil => intro i old h; simp at h
  | cons w ws ih =>
    intro i old h new
    cases i with
    | zero =>
      simp at h
      exact ⟨[], ws, by simp [h], by simp⟩
    | succ i =>
      simp at h
      obtain ⟨l1, l2, h1, h2⟩ := ih i old h new
      exact ⟨w :: l1, l2, by simp [h1], by simp [h2]⟩

theorem liveWorkers_eq_zero : ∀ ws : List WorkerPC, liveWorkers ws = 0 →
    ∀ w ∈ ws, w = WorkerPC.exited := by
  intro ws
  induction ws with
  | nil => intro _ w hw; simp at hw
  | cons v ws ih =>
    intro h w hw
    cases v <;> simp [liveWorkers] at h
    rcases List.mem_cons.mp hw with hw | hw
    · exact hw
    · exact ih h w hw

theorem inFlight_all_exited : ∀ ws : List WorkerPC, (∀ w ∈ ws, w = WorkerPC.exited) →
    inFlight ws = [] := by
  intro ws
  induction ws with
  | nil => intro _; rfl
  | cons v ws ih =>
    intro h
    have hv : v = WorkerPC.exited := h v (List.mem_cons_self v ws)
    subst hv
    simp only [inFlight]
    exact ih (fun w hw => h w (List.mem_cons_of_mem _ hw))

theorem inv_init (cap workerCount : Nat) : Inv (init cap workerCount) := by
  have hlive : ∀ n : Nat, liveWorkers (List.replicate n WorkerPC.idle) = n := by
    intro n
    induction n with
    | zero => rfl
    | succ n ih => simp [List.replicate_succ, liveWorkers, ih]
  have hfl : ∀ n : Nat, inFlight (List.replicate n WorkerPC.idle) = [] := by
    intro n
    induction n with
    | zero => rfl
    | succ n ih => simp [List.replicate_succ, inFlight, ih]
  refine ⟨rfl, ?_, rfl, ?_, ?_, ?_, ?_, ?_, ?_, ?_⟩
  · simp [init]
  · simp [init]
  · simp [init]
  · simp [init, hlive]
  · intro h
    simp [init, List.mem_replicate] at h
  · simp [init, hfl]
  · simp [init]
  · simp [init]

theorem stepProducer_top_shutdown {s : State} (src : message × Option String) (pick : Bool)
    (hp : s.producer = ProducerPC.top) (hs : s.shutdown = true)
    (hopen : s.modemQueue.closed = false) :
    stepProducer s src pick
      = { s with modemQueue := { s.modemQueue with closed := true }, closes := s.closes + 1,
                 producer := ProducerPC.exited, done := true } := by
  simp [stepProducer, hp, hs, Chan.close, hopen]

theorem stepProducer_top_idle {s : State} (src : message × Option String) (pick : Bool)
    (hp : s.producer = ProducerPC.top) (hs : s.shutdown = false) (he : s.ModemIds = []) :
    stepProducer s src pick = s := by
  simp [stepProducer, hp, hs, he]

theorem stepProducer_top_start {s : State} (src : message × Option String) (pick : Bool)
    (hp : s.producer = ProducerPC.top) (hs : s.shutdown = false) (he : s.ModemIds ≠ []) :
    stepProducer s src pick = { s with producer := ProducerPC.pass s.ModemIds } := by
  simp [stepProducer, hp, hs, he]

theorem stepProducer_pass_nil {s : State} (src : message × Option String) (pick : Bool)
    (hp : s.producer = ProducerPC.pass []) :
    stepProducer s src pick = { s with producer := ProducerPC.top } := by
  simp [stepProducer, hp]

theorem stepProducer_pass_skipped {s : State} {src : message × Option String} {pick : Bool}
    {modemID : String} {rest : List String}
    (hp : s.producer = ProducerPC.pass (modemID :: rest))
    (hb : passBody s.modemQueue s.shutdown modemID src pick = (s.modemQueue, Flow.skipped)) :
    stepProducer s src pick = { s with producer := ProducerPC.pass rest } := by
  simp [stepProducer, hp, hb]

theorem stepProducer_pass_full {s : State} {src : message × Option String} {pick : Bool}
    {modemID : String} {rest : List String}
    (hp : s.producer = ProducerPC.pass (modemID :: rest))
    (hb : passBody s.modemQueue s.shutdown modemID src pick = (s.modemQueue, Flow.full)) :
    stepProducer s src pick = { s with producer := ProducerPC.pass rest } := by
  simp [stepProducer, hp, hb]

theorem stepProducer_pass_enqueued {s : State} {src : message × Option String} {pick : Bool}
    {modemID : String} {rest : List String} {q : Chan}
    (hp : s.producer = ProducerPC.pass (modemID :: rest))
    (hb : passBody s.modemQueue s.shutdown modemID src pick = (q, Flow.enqueued)) :
    stepProducer s src pick
      = { s with modemQueue := q, producer := ProducerPC.pass rest,
                 enqueued := s.enqueued ++ [src.1.setModemID modemID] } := by
  simp [stepProducer, hp, hb]

theorem stepProducer_pass_returned {s : State} {src : message × Option String} {pick : Bool}
    {modemID : String} {rest : List String} {q : Chan}
    (hp : s.producer = ProducerPC.pass (modemID :: rest))
    (hb : passBody s.modemQueue s.shutdown modemID src pick = (q, Flow.returned)) :
    stepProducer s src pick
      = { s with modemQueue := q, closes := s.closes + 1, producer := ProducerPC.exited,
                 done := true } := by
  simp [stepProducer, hp, hb]

theorem stepProducer_exited {s : State} (src : message × Option String) (pick : Bool)
    (hp : s.producer = ProducerPC.exited) : stepProducer s src pick = s := by
  simp [stepProducer, hp]


theorem producer_open {s : State} (h : Inv s) (hp : s.producer ≠ ProducerPC.exited) :
    s.modemQueue.closed = false ∧ WorkerPC.exited ∉ s.workers ∧ s.done = false ∧
      s.mainPC = MainPC.waitDone ∧ s.closes = 0 := by
  have hopen : s.modemQueue.closed = false := by
    cases hc : s.modemQueue.closed with
    | false => rfl
    | true => exact absurd (h.closedIff.mp hc) hp
  have hd : s.done = false := by
    cases hc : s.done with
    | false => rfl
    | true => exact absurd (h.doneIff.mp hc) hp
  refine ⟨hopen, fun hm => ?_, hd, ?_, ?_⟩
  · rw [(h.exitedEmpty hm).1] at hopen; cases hopen
  · by_contra hm
    rw [h.mainDone hm] at hd; cases hd
  · have := h.closesEq
    rw [hopen] at this
    simpa using this

theorem inv_stepProducer (s : State) (src : message × Option String) (pick : Bool)
    (h : Inv s) : Inv (stepProducer s src pick) := by
  cases hp : s.producer with
  | exited => rw [stepProducer_exited src pick hp]; exact h
  | panicked => exact absurd hp h.noPanic
  | top =>
    obtain ⟨hopen, hne, hd, hm, hc0⟩ := producer_open h (by rw [hp]; simp)
    obtain ⟨h1, h2, h3, h4, h5, h6, h7, h8, h9, h10⟩ := h
    cases hs : s.shutdown with
    | true =>
      rw [stepProducer_top_shutdown src pick hp hs hopen]
      exact ⟨h1, by simp, by simp [hc0], by simp, by simp, h6, fun hx => absurd hx hne, h8,
        fun _ => rfl, fun hc => by rw [hm] at hc; cases hc⟩
    | false =>
      by_cases he : s.ModemIds = []
      · rw [stepProducer_top_idle src pick hp hs he]
        exact ⟨h1, h2, h3, h4, h5, h6, h7, h8, h9, h10⟩
      · rw [stepProducer_top_start src pick hp hs he]
        exact ⟨h1, by simp [hopen], h3, by simp, by simp [hd], h6, h7, h8, h9, h10⟩
  | pass reg =>
    obtain ⟨hopen, hne, hd, hm, hc0⟩ := producer_open h (by rw [hp]; simp)
    obtain ⟨h1, h2, h3, h4, h5, h6, h7, h8, h9, h10⟩ := h
    cases reg with
    | nil =>
      rw [stepProducer_pass_nil src pick hp]
      exact ⟨h1, by simp [hopen], h3, by simp, by simp [hd], h6, h7, h8, h9, h10⟩
    | cons modemID rest =>
      rcases passBody_cases s.modemQueue s.shutdown modemID src pick hopen with
        hb | hb | hb | ⟨_, hb⟩
      · rw [stepProducer_pass_skipped hp hb]
        exact ⟨h1, by simp [hopen], h3, by simp, by simp [hd], h6, h7, h8, h9, h10⟩
      · rw [stepProducer_pass_full hp hb]
        exact ⟨h1, by simp [hopen], h3, by simp, by simp [hd], h6, h7, h8, h9, h10⟩
      · rw [stepProducer_pass_enqueued hp hb]
        exact ⟨by simp [h1], by simp [hopen], by simp [h3], by simp, by simp [hd], h6,
          fun hx => absurd hx hne, h8, h9, h10⟩
      · rw [stepProducer_pass_returned hp hb]
        exact ⟨h1, by simp, by simp [hc0], by simp, by simp, h6, fun hx => absurd hx hne, h8,
          fun _ => rfl, fun hc => by rw [hm] at hc; cases hc⟩


theorem workerRecv_take {s : State} (i : Nat) (busy : message → WorkerPC) {msg : message}
    {rest : List message} (hb : s.modemQueue.buf = msg :: rest) :
    workerRecv s i busy
      = { s with modemQueue := { s.modemQueue with buf := rest },
                 workers := s.workers.set i (busy msg), handed := s.handed ++ [msg] } := by
  simp [workerRecv, hb]

theorem workerRecv_closed {s : State} (i : Nat) (busy : message → WorkerPC)
    (hb : s.modemQueue.buf = []) (hc : s.modemQueue.closed = true) :
    workerRecv s i busy
      = { s with workers := s.workers.set i WorkerPC.exited, wg := s.wg - 1 } := by
  simp [workerRecv, hb, hc]

theorem workerRecv_blocked {s : State} (i : Nat) (busy : message → WorkerPC)
    (hb : s.modemQueue.buf = []) (hc : s.modemQueue.closed = false) :
    workerRecv s i busy = s := by
  simp [workerRecv, hb, hc]

theorem perm_insert_middle (A B C : List message) (m : message) :
    (A ++ (B ++ m :: C)).Perm ((A ++ (B ++ C)) ++ [m]) := by
  have h1 : (A ++ (B ++ m :: C)) = (A ++ B) ++ m :: C := by simp
  have h2 : (A ++ (B ++ C)) = (A ++ B) ++ C := by simp
  rw [h1, h2]
  exact (List.perm_middle).trans (List.perm_append_singleton m _).symm

/-- A worker that is waiting moves to another waiting point. -/
theorem inv_setWaiting {s : State} {i : Nat} {old new : WorkerPC} (h : Inv s)
    (hi : s.workers[i]? = some old)
    (hold : old = WorkerPC.idle ∨ old = WorkerPC.draining)
    (hnew : new = WorkerPC.idle ∨ new = WorkerPC.draining) :
    Inv { s with workers := s.workers.set i new } := by
  obtain ⟨l1, l2, hw, hset⟩ := set_split s.workers i old hi new
  obtain ⟨h1, h2, h3, h4, h5, h6, h7, h8, h9, h10⟩ := h
  refine ⟨h1, h2, h3, h4, h5, ?_, ?_, ?_, h9, h10⟩
  · show s.wg = (liveWorkers (s.workers.set i new) : Int)
    rw [hset, h6, hw]
    rcases hold with rfl | rfl <;> rcases hnew with rfl | rfl <;>
      simp [liveWorkers_append, liveWorkers]
  · show WorkerPC.exited ∈ s.workers.set i new → _
    intro hx
    apply h7
    rw [hset] at hx
    rw [hw]
    simp only [List.mem_append, List.mem_cons] at hx ⊢
    rcases hx with hx | hx | hx
    · exact Or.inl hx
    · rcases hnew with rfl | rfl <;> cases hx
    · exact Or.inr (Or.inr hx)
  · show (s.sent.map Prod.fst ++ inFlight (s.workers.set i new)).Perm s.handed
    rw [hw] at h8
    rw [hset]
    rcases hold with rfl | rfl <;> rcases hnew with rfl | rfl <;>
      simpa [inFlight_append, inFlight] using h8

theorem inv_workerRecv {s : State} {i : Nat} {old : WorkerPC} (busy : message → WorkerPC)
    (h : Inv s) (hi : s.workers[i]? = some old)
    (hold : old = WorkerPC.idle ∨ old = WorkerPC.draining)
    (hbusy : busy = WorkerPC.sending ∨ busy = WorkerPC.drainSending) :
    Inv (workerRecv s i busy) := by
  cases hb : s.modemQueue.buf with
  | nil =>
    cases hc : s.modemQueue.closed with
    | false => rw [workerRecv_blocked i busy hb hc]; exact h
    | true =>
      rw [workerRecv_closed i busy hb hc]
      obtain ⟨l1, l2, hw, hset⟩ := set_split s.workers i old hi WorkerPC.exited
      obtain ⟨h1, h2, h3, h4, h5, h6, h7, h8, h9, h10⟩ := h
      refine ⟨h1, h2, h3, h4, h5, ?_, fun _ => ⟨hc, hb⟩, ?_, h9, ?_⟩
      · show s.wg - 1 = (liveWorkers (s.workers.set i WorkerPC.exited) : Int)
        rw [hset, h6, hw]
        rcases hold with rfl | rfl <;> simp [liveWorkers_append, liveWorkers] <;> omega
      · show (s.sent.map Prod.fst ++ inFlight (s.workers.set i WorkerPC.exited)).Perm s.handed
        rw [hw] at h8
        rw [hset]
        rcases hold with rfl | rfl <;> simpa [inFlight_append, inFlight] using h8
      · intro hm
        have h0 : s.wg = 0 := h10 hm
        rw [h6, hw] at h0
        rcases hold with rfl | rfl <;> simp [liveWorkers_append, liveWorkers] at h0 <;> omega
  | cons msg rest =>
    rw [workerRecv_take i busy hb]
    obtain ⟨l1, l2, hw, hset⟩ := set_split s.workers i old hi (busy msg)
    obtain ⟨h1, h2, h3, h4, h5, h6, h7, h8, h9, h10⟩ := h
    have hne : WorkerPC.exited ∉ s.workers := fun hx => by
      rw [(h7 hx).2] at hb; cases hb
    refine ⟨?_, h2, h3, h4, h5, ?_, ?_, ?_, h9, h10⟩
    · show s.enqueued = (s.handed ++ [msg]) ++ rest
      rw [h1, hb]; simp
    · show s.wg = (liveWorkers (s.workers.set i (busy msg)) : Int)
      rw [hset, h6, hw]
      rcases hold with rfl | rfl <;> rcases hbusy with rfl | rfl <;>
        simp [liveWorkers_append, liveWorkers]
    · show WorkerPC.exited ∈ s.workers.set i (busy msg) → _
      intro hx
      exfalso
      apply hne
      rw [hset] at hx
      rw [hw]
      simp only [List.mem_append, List.mem_cons] at hx ⊢
      rcases hx with hx | hx | hx
      · exact Or.inl hx
      · rcases hbusy with rfl | rfl <;> cases hx
      · exact Or.inr (Or.inr hx)
    · show (s.sent.map Prod.fst ++ inFlight (s.workers.set i (busy msg))).Perm (s.handed ++ [msg])
      rw [hw] at h8
      rw [hset]
      have h8a : (s.sent.map Prod.fst ++ (inFlight l1 ++ inFlight l2)).Perm s.handed := by
        rcases hold with rfl | rfl <;> simpa [inFlight_append, inFlight] using h8
      have hfl : inFlight (l1 ++ busy msg :: l2) = inFlight l1 ++ msg :: inFlight l2 := by
        rcases hbusy with rfl | rfl <;> simp [inFlight_append, inFlight]
      rw [hfl]
      exact (perm_insert_middle _ _ _ msg).trans (List.Perm.append_right [msg] h8a)

/-- The call of `sendSMS` of a worker returns. -/
theorem inv_sendReturns {s : State} {i : Nat} {old new : WorkerPC} {msg : message}
    (sendErr : Option String) (h : Inv s) (hi : s.workers[i]? = some old)
    (hold : old = WorkerPC.sending msg ∨ old = WorkerPC.drainSending msg)
    (hnew : new = WorkerPC.idle ∨ new = WorkerPC.draining) :
    Inv { s with workers := s.workers.set i new, sent := s.sent ++ [(msg, sendErr)] } := by
  obtain ⟨l1, l2, hw, hset⟩ := set_split s.workers i old hi new
  obtain ⟨h1, h2, h3, h4, h5, h6, h7, h8, h9, h10⟩ := h
  refine ⟨h1, h2, h3, h4, h5, ?_, ?_, ?_, h9, h10⟩
  · show s.wg = (liveWorkers (s.workers.set i new) : Int)
    rw [hset, h6, hw]
    rcases hold with rfl | rfl <;> rcases hnew with rfl | rfl <;>
      simp [liveWorkers_append, liveWorkers]
  · show WorkerPC.exited ∈ s.workers.set i new → _
    intro hx
    apply h7
    rw [hset] at hx
    rw [hw]
    simp only [List.mem_append, List.mem_cons] at hx ⊢
    rcases hx with hx | hx | hx
    · exact Or.inl hx
    · rcases hnew with rfl | rfl <;> cases hx
    · exact Or.inr (Or.inr hx)
  · show ((s.sent ++ [(msg, sendErr)]).map Prod.fst ++ inFlight (s.workers.set i new)).Perm
      s.handed
    rw [hw] at h8
    rw [hset]
    have h8a : (s.sent.map Prod.fst ++ (inFlight l1 ++ msg :: inFlight l2)).Perm s.handed := by
      rcases hold with rfl | rfl <;> simpa [inFlight_append, inFlight] using h8
    have hfl : inFlight (l1 ++ new :: l2) = inFlight l1 ++ inFlight l2 := by
      rcases hnew with rfl | rfl <;> simp [inFlight_append, inFlight]
    rw [hfl]
    refine List.Perm.trans ?_ h8a
    have e1 : List.map Prod.fst (s.sent ++ [(msg, sendErr)]) ++ (inFlight l1 ++ inFlight l2)
        = s.sent.map Prod.fst ++ (msg :: (inFlight l1 ++ inFlight l2)) := by simp
    rw [e1]
    exact List.Perm.append_left _ (List.perm_middle).symm

theorem stepWorker_idle {s : State} {i : Nat} (pick : Bool) (sendErr : Option String)
    (hi : s.workers[i]? = some WorkerPC.idle) :
    stepWorker s i pick sendErr = s ∨
    (s.shutdown = true ∧
      stepWorker s i pick sendErr = { s with workers := s.workers.set i WorkerPC.draining }) ∨
    stepWorker s i pick sendErr = workerRecv s i WorkerPC.sending := by
  unfold stepWorker
  rw [hi]
  simp only
  split
  · exact Or.inl rfl
  · rename_i hs _; exact Or.inr (Or.inl ⟨hs, rfl⟩)
  · exact Or.inr (Or.inr rfl)
  · rename_i hs _
    cases pick
    · exact Or.inr (Or.inl ⟨hs, by simp⟩)
    · exact Or.inr (Or.inr (by simp))

theorem stepWorker_sending {s : State} {i : Nat} {msg : message} (pick : Bool)
    (sendErr : Option String) (hi : s.workers[i]? = some (WorkerPC.sending msg)) :
    stepWorker s i pick sendErr
      = { s with workers := s.workers.set i WorkerPC.idle,
                 sent := s.sent ++ [(msg, sendErr)] } := by
  unfold stepWorker
  rw [hi]

theorem stepWorker_draining {s : State} {i : Nat} (pick : Bool)
    (sendErr : Option String) (hi : s.workers[i]? = some WorkerPC.draining) :
    stepWorker s i pick sendErr = workerRecv s i WorkerPC.drainSending := by
  unfold stepWorker
  rw [hi]

theorem stepWorker_drainSending {s : State} {i : Nat} {msg : message} (pick : Bool)
    (sendErr : Option String) (hi : s.workers[i]? = some (WorkerPC.drainSending msg)) :
    stepWorker s i pick sendErr
      = { s with workers := s.workers.set i WorkerPC.draining,
                 sent := s.sent ++ [(msg, sendErr)] } := by
  unfold stepWorker
  rw [hi]

theorem stepWorker_exited {s : State} {i : Nat} (pick : Bool)
    (sendErr : Option String) (hi : s.workers[i]? = some WorkerPC.exited) :
    stepWorker s i pick sendErr = s := by
  unfold stepWorker
  rw [hi]

theorem stepWorker_none {s : State} {i : Nat} (pick : Bool)
    (sendErr : Option String) (hi : s.workers[i]? = none) :
    stepWorker s i pick sendErr = s := by
  unfold stepWorker
  rw [hi]

theorem inv_stepWorker (s : State) (i : Nat) (pick : Bool) (sendErr : Option String)
    (h : Inv s) : Inv (stepWorker s i pick sendErr) := by
  cases hi : s.workers[i]? with
  | none => rw [stepWorker_none pick sendErr hi]; exact h
  | some w =>
    cases w with
    | idle =>
      rcases stepWorker_idle pick sendErr hi with he | ⟨_, he⟩ | he <;> rw [he]
      · exact h
      · exact inv_setWaiting h hi (Or.inl rfl) (Or.inr rfl)
      · exact inv_workerRecv _ h hi (Or.inl rfl) (Or.inl rfl)
    | sending msg =>
      rw [stepWorker_sending pick sendErr hi]
      exact inv_sendReturns sendErr h hi (Or.inl rfl) (Or.inl rfl)
    | draining =>
      rw [stepWorker_draining pick sendErr hi]
      exact inv_workerRecv _ h hi (Or.inr rfl) (Or.inr rfl)
    | drainSending msg =>
      rw [stepWorker_drainSending pick sendErr hi]
      exact inv_sendReturns sendErr h hi (Or.inr rfl) (Or.inr rfl)
    | exited => rw [stepWorker_exited pick sendErr hi]; exact h

theorem inv_stepDiscovery (s : State) (env : DiscEnv) (h : Inv s) :
    Inv (stepDiscovery s env) := by
  unfold stepDiscovery
  split
  · exact h
  · exact ⟨h.1, h.2, h.3, h.4, h.5, h.6, h.7, h.8, h.9, h.10⟩

theorem inv_stepMain (s : State) (h : Inv s) : Inv (stepMain s) := by
  unfold stepMain
  split
  · split
    · rename_i hd
      exact ⟨h.1, h.2, h.3, h.4, h.5, h.6, h.7, h.8, fun _ => hd, fun hc => by cases hc⟩
    · exact h
  · split
    · rename_i hw
      exact ⟨h.1, h.2, h.3, h.4, h.5, h.6, h.7, h.8, fun _ => h.9 (by simp_all), fun _ => hw⟩
    · exact h
  · exact h

theorem inv_step (s : State) (a : Action) (h : Inv s) : Inv (step s a) := by
  unfold step
  split
  · exact h
  · cases a with
    | signal => exact ⟨h.1, h.2, h.3, h.4, h.5, h.6, h.7, h.8, h.9, h.10⟩
    | discovery env => exact inv_stepDiscovery s env h
    | producer src pick => exact inv_stepProducer s src pick h
    | worker i pick sendErr => exact inv_stepWorker s i pick sendErr h
    | main => exact inv_stepMain s h

theorem inv_run (as : List Action) : ∀ s : State, Inv s → Inv (run s as) := by
  induction as with
  | nil => intro s h; exact h
  | cons a as ih => intro s h; exact ih (step s a) (inv_step s a h)

theorem inv_reachable (cap workerCount : Nat) (as : List Action) :
    Inv (run (init cap workerCount) as) :=
  inv_run as _ (inv_init cap workerCount)

/-! ## What each goroutine leaves unchanged; the registry in the program -/

theorem stepProducer_frame (s : State) (src : message × Option String) (pick : Bool) :
    (stepProducer s src pick).ModemIds = s.ModemIds ∧
    (stepProducer s src pick).workers = s.workers ∧
    (stepProducer s src pick).shutdown = s.shutdown ∧
    (stepProducer s src pick).discovery = s.discovery ∧
    (stepProducer s src pick).enableCmds = s.enableCmds := by
  unfold stepProducer
  repeat' split
  all_goals exact ⟨rfl, rfl, rfl, rfl, rfl⟩

theorem workerRecv_frame (s : State) (i : Nat) (busy : message → WorkerPC) :
    (workerRecv s i busy).ModemIds = s.ModemIds ∧
    (workerRecv s i busy).producer = s.producer ∧
    (workerRecv s i busy).shutdown = s.shutdown ∧
    (workerRecv s i busy).closes = s.closes ∧
    (workerRecv s i busy).enqueued = s.enqueued ∧
    (workerRecv s i busy).modemQueue.closed = s.modemQueue.closed ∧
    (workerRecv s i busy).discovery = s.discovery ∧
    (workerRecv s i busy).enableCmds = s.enableCmds := by
  unfold workerRecv
  repeat' split
  all_goals exact ⟨rfl, rfl, rfl, rfl, rfl, rfl, rfl, rfl⟩

theorem stepWorker_frame (s : State) (i : Nat) (pick : Bool) (sendErr : Option String) :
    (stepWorker s i pick sendErr).ModemIds = s.ModemIds ∧
    (stepWorker s i pick sendErr).producer = s.producer ∧
    (stepWorker s i pick sendErr).shutdown = s.shutdown ∧
    (stepWorker s i pick sendErr).closes = s.closes ∧
    (stepWorker s i pick sendErr).enqueued = s.enqueued ∧
    (stepWorker s i pick sendErr).modemQueue.closed = s.modemQueue.closed ∧
    (stepWorker s i pick sendErr).discovery = s.discovery ∧
    (stepWorker s i pick sendErr).enableCmds = s.enableCmds := by
  unfold stepWorker
  repeat' split
  all_goals first
    | exact ⟨rfl, rfl, rfl, rfl, rfl, rfl, rfl, rfl⟩
    | exact workerRecv_frame s i _

theorem stepMain_frame (s : State) :
    (stepMain s).ModemIds = s.ModemIds ∧
    (stepMain s).producer = s.producer ∧
    (stepMain s).shutdown = s.shutdown ∧
    (stepMain s).closes = s.closes ∧
    (stepMain s).enqueued = s.enqueued ∧
    (stepMain s).modemQueue = s.modemQueue ∧
    (stepMain s).workers = s.workers ∧
    (stepMain s).discovery = s.discovery ∧
    (stepMain s).enableCmds = s.enableCmds := by
  unfold stepMain
  repeat' split
  all_goals exact ⟨rfl, rfl, rfl, rfl, rfl, rfl, rfl, rfl, rfl⟩

theorem stepDiscovery_frame (s : State) (env : DiscEnv) :
    (stepDiscovery s env).producer = s.producer ∧
    (stepDiscovery s env).shutdown = s.shutdown ∧
    (stepDiscovery s env).closes = s.closes ∧
    (stepDiscovery s env).enqueued = s.enqueued ∧
    (stepDiscovery s env).modemQueue = s.modemQueue ∧
    (stepDiscovery s env).workers = s.workers := by
  unfold stepDiscovery
  repeat' split
  all_goals exact ⟨rfl, rfl, rfl, rfl, rfl, rfl⟩

theorem enableModemsIter_ModemIds (shutdown : Bool) (r : List String) (env : DiscEnv) :
    (enableModemsIter shutdown r env).ModemIds = r ∨
    (enableModemsIter shutdown r env).ModemIds = (parseModemIDs env.output).foldl merge r := by
  unfold enableModemsIter
  dsimp only
  repeat' split
  all_goals first
    | exact Or.inl rfl
    | exact Or.inr rfl

theorem nodup_step (s : State) (a : Action) (h : s.ModemIds.Nodup) :
    (step s a).ModemIds.Nodup := by
  unfold step
  split
  · exact h
  · cases a with
    | signal => exact h
    | discovery env =>
      show (stepDiscovery s env).ModemIds.Nodup
      unfold stepDiscovery
      split
      · exact h
      · show (enableModemsIter s.shutdown s.ModemIds env).ModemIds.Nodup
        rcases enableModemsIter_ModemIds s.shutdown s.ModemIds env with he | he <;> rw [he]
        · exact h
        · exact nodup_foldl_merge _ _ h
    | producer src pick =>
      show (stepProducer s src pick).ModemIds.Nodup
      rw [(stepProducer_frame s src pick).1]; exact h
    | worker i pick sendErr =>
      show (stepWorker s i pick sendErr).ModemIds.Nodup
      rw [(stepWorker_frame s i pick sendErr).1]; exact h
    | main =>
      show (stepMain s).ModemIds.Nodup
      rw [(stepMain_frame s).1]; exact h

theorem nodup_run (as : List Action) :
    ∀ s : State, s.ModemIds.Nodup → (run s as).ModemIds.Nodup := by
  induction as with
  | nil => intro s h; exact h
  | cons a as ih => intro s h; exact ih (step s a) (nodup_step s a h)

/-- C6: the registry never holds a duplicate identifier: merging any sequence
of identifiers into the empty registry gives a list without duplicates,
merging an identifier that is present leaves the registry unchanged, merging
the same identifier twice equals merging it once, and in every state the
program reaches `modems.ModemIds` has no duplicate. -/
theorem registry_never_duplicates (ids r : List String) (id : String)
    (cap workerCount : Nat) (as : List Action) :
    (ids.foldl merge []).Nodup ∧
    (id ∈ r → merge r id = r) ∧
    merge (merge r id) id = merge r id ∧
    (run (init cap workerCount) as).ModemIds.Nodup :=
  ⟨nodup_foldl_merge ids [] List.nodup_nil, merge_of_mem,
    merge_of_mem (mem_merge_self r id), nodup_run as _ List.nodup_nil⟩

/-- C6 on overlapping inputs: merging `m0, m1, m0, m1, m0` keeps one `m0` and
one `m1`, and merging `m0` again changes nothing. -/
theorem registry_never_duplicates_witness :
    (["m0", "m1", "m0", "m1", "m0"].foldl merge []) = ["m0", "m1"] ∧
    ("m0" ∈ ["m0", "m1"] ∧ merge ["m0", "m1"] "m0" = ["m0", "m1"]) :=
  ⟨by decide, by decide,
    (registry_never_duplicates [] ["m0", "m1"] "m0" 100 3 []).2.1 (by decide)⟩

/-! ## The full queue -/

theorem step_producer_running {s : State} (src : message × Option String) (pick : Bool)
    (hh : s.halted = false) : step s (Action.producer src pick) = stepProducer s src pick := by
  simp [step, hh]

theorem step_discovery_running {s : State} (env : DiscEnv)
    (hh : s.halted = false) : step s (Action.discovery env) = stepDiscovery s env := by
  simp [step, hh]

theorem step_worker_running {s : State} (i : Nat) (pick : Bool) (sendErr : Option String)
    (hh : s.halted = false) :
    step s (Action.worker i pick sendErr) = stepWorker s i pick sendErr := by
  simp [step, hh]

theorem step_halted {s : State} (a : Action) (hh : s.halted = true) : step s a = s := by
  simp [step, hh]

/-- C2: with the queue open and at capacity and shutdown not signalled, the
enqueue attempt of the producer takes the `default` of the select at once:
the queue is unchanged, the producer moves on to the next endpoint, and the
state after the attempt holds no trace of the message: it is the same
whatever the source had answered, so the message can never be enqueued in the
rest of the pass or in a later cycle. -/
theorem full_queue_drops_message (s : State) (modemID : String) (rest : List String)
    (msg : message) (pick : Bool)
    (hp : s.producer = ProducerPC.pass (modemID :: rest)) (hh : s.halted = false)
    (hopen : s.modemQueue.closed = false)
    (hfull : s.modemQueue.buf.length = s.modemQueue.cap) (hs : s.shutdown = false) :
    enqueueSelect s.modemQueue s.shutdown (msg.setModemID modemID) pick
      = (s.modemQueue, Flow.full) ∧
    step s (Action.producer (msg, none) pick) = { s with producer := ProducerPC.pass rest } ∧
    ∀ (other : message × Option String) (pick2 : Bool) (as : List Action),
      run (step s (Action.producer (msg, none) pick)) as
        = run (step s (Action.producer other pick2)) as := by
  have hsel : ∀ (m : message) (p : Bool),
      enqueueSelect s.modemQueue s.shutdown m p = (s.modemQueue, Flow.full) := by
    intro m p
    rw [hs]
    exact enqueueSelect_full m p hopen hfull
  have hstep : ∀ (src : message × Option String) (p : Bool),
      step s (Action.producer src p) = { s with producer := ProducerPC.pass rest } := by
    intro src p
    rw [step_producer_running src p hh]
    cases he : src.2 with
    | some e =>
      exact stepProducer_pass_skipped hp (passBody_source_error _ _ _ _ _ he)
    | none =>
      refine stepProducer_pass_full hp ?_
      rw [passBody_source_ok _ _ _ _ _ he]
      exact hsel _ _
  refine ⟨hsel _ _, hstep _ _, ?_⟩
  intro other pick2 as
  rw [hstep, hstep]

/-- C2, the scenario of the specification: capacity 2 holding 2 messages; the
attempt to enqueue a third leaves exactly the 2 messages and the producer
goes on. -/
theorem full_queue_drops_message_witness :
    (run (init 2 3) fillTwo).modemQueue
        = ⟨[⟨"+1", "a", "/Modem/0"⟩, ⟨"+2", "b", "/Modem/1"⟩], 2, false⟩ ∧
    step (run (init 2 3) fillTwo) (Action.producer (⟨"+3", "c", ""⟩, none) true)
      = { run (init 2 3) fillTwo with producer := ProducerPC.pass [] } :=
  ⟨by decide,
   (full_queue_drops_message (run (init 2 3) fillTwo) "/Modem/2" [] ⟨"+3", "c", ""⟩ true
      (by decide) (by decide) (by decide) (by decide) (by decide)).2.1⟩

/-! ## Discovery -/

theorem enablePass_spec (enable : String → Option String) :
    ∀ ids : List String,
      ((∀ x ∈ ids, enable x = none) ∧ enablePass enable ids = (ids, none)) ∨
      ∃ (ok : List String) (bad : String) (rest : List String) (e : String),
        ids = ok ++ bad :: rest ∧ (∀ x ∈ ok, enable x = none) ∧ enable bad = some e ∧
          enablePass enable ids = (ok ++ [bad], some e) := by
  intro ids
  induction ids with
  | nil => left; exact ⟨by simp, rfl⟩
  | cons id ids ih =>
    cases he : enable id with
    | some e =>
      right
      exact ⟨[], id, ids, e, rfl, by simp, he, by simp [enablePass, he]⟩
    | none =>
      rcases ih with ⟨hall, hp⟩ | ⟨ok, bad, rest, e, hids, hok, hbad, hp⟩
      · left
        refine ⟨?_, by simp [enablePass, he, hp]⟩
        intro x hx
        rcases List.mem_cons.mp hx with rfl | hx
        · exact he
        · exact hall x hx
      · right
        refine ⟨id :: ok, bad, rest, e, by simp [hids], ?_, hbad, by simp [enablePass, he, hp]⟩
        intro x hx
        rcases List.mem_cons.mp hx with rfl | hx
        · exact he
        · exact hok x hx

theorem enableModemsIter_enable {shutdown : Bool} {r : List String} {env : DiscEnv}
    (hs : shutdown = false) (hl : env.listErr = none)
    (ho : env.output ≠ "No modems were found\n")
    (hne : (parseModemIDs env.output).foldl merge r ≠ []) :
    enableModemsIter shutdown r env
      = { ModemIds := (parseModemIDs env.output).foldl merge r,
          enabled := (enablePass env.enable ((parseModemIDs env.output).foldl merge r)).1,
          err := (enablePass env.enable ((parseModemIDs env.output).foldl merge r)).2 } := by
  simp [enableModemsIter, hs, hl, ho, hne]

theorem enableModemsIter_none_found (shutdown : Bool) {r : List String} {env : DiscEnv}
    (hcase : (parseModemIDs env.output = [] ∧ r = []) ∨ env.output = "No modems were found\n") :
    ∃ e, enableModemsIter shutdown r env = { ModemIds := r, enabled := [], err := some e } := by
  unfold enableModemsIter
  cases shutdown with
  | true => exact ⟨_, rfl⟩
  | false =>
    cases hl : env.listErr with
    | some e => exact ⟨e, by simp⟩
    | none =>
      by_cases ho : env.output = "No modems were found\n"
      · exact ⟨"no modems were found", by simp [ho]⟩
      · rcases hcase with ⟨hp, hr⟩ | hcase
        · exact ⟨"no modems were found", by simp [ho, hp, hr]⟩
        · exact absurd hcase ho

theorem stepDiscovery_returned {s : State} (env : DiscEnv) {r : DiscResult} {e : String}
    (hd : s.discovery = DiscoveryPC.running)
    (hr : enableModemsIter s.shutdown s.ModemIds env = r) (he : r.err = some e) :
    stepDiscovery s env
      = { s with ModemIds := r.ModemIds, enableCmds := s.enableCmds ++ r.enabled,
                 discovery := DiscoveryPC.returned e } := by
  simp [stepDiscovery, hd, hr, he]

theorem step_discovery_done {s : State} {e : String} (env : DiscEnv)
    (hd : s.discovery = DiscoveryPC.returned e) : step s (Action.discovery env) = s := by
  unfold step
  split
  · rfl
  · simp [stepDiscovery, hd]

/-- C7 as stated fails when the registry already holds an identifier: with
registry `/Modem/0` known and an empty listing (no identifier is obtained
from it), the iteration returns no error, runs the enable command of
`/Modem/0` and the loop goes on. -/
theorem zero_endpoints_counterexample :
    parseModemIDs "" = [] ∧
    (enableModemsIter false ["/Modem/0"] ⟨none, "", fun _ => none⟩).err = none ∧
    (enableModemsIter false ["/Modem/0"] ⟨none, "", fun _ => none⟩).enabled = ["/Modem/0"] ∧
    (run (init 100 3)
      [Action.discovery ⟨none, "/Modem/0 a\n", fun _ => none⟩,
       Action.discovery ⟨none, "", fun _ => none⟩]).discovery = DiscoveryPC.running ∧
    (run (init 100 3)
      [Action.discovery ⟨none, "/Modem/0 a\n", fun _ => none⟩,
       Action.discovery ⟨none, "", fun _ => none⟩]).enableCmds = ["/Modem/0", "/Modem/0"] := by
  decide

/-- C7, amended: when no identifier is obtained from the listing, the
iteration of `enableModems` returns a non-nil error, runs no enable command
and is the last iteration, if the registry is empty or the listing is exactly
`"No modems were found\n"`; with a non-empty registry and another listing
(read without error, shutdown not signalled) the iteration instead runs the
enable pass over the known identifiers and ends as that pass ends. -/
theorem zero_endpoints_terminates_discovery (s : State) (env : DiscEnv)
    (hd : s.discovery = DiscoveryPC.running) (hh : s.halted = false)
    (hnone : parseModemIDs env.output = []) :
    (s.ModemIds = [] ∨ env.output = "No modems were found\n" →
      (∃ e, (enableModemsIter s.shutdown s.ModemIds env).err = some e ∧
        (step s (Action.discovery env)).discovery = DiscoveryPC.returned e) ∧
      (enableModemsIter s.shutdown s.ModemIds env).enabled = [] ∧
      (step s (Action.discovery env)).enableCmds = s.enableCmds ∧
      (step s (Action.discovery env)).ModemIds = s.ModemIds ∧
      ∀ env2 : DiscEnv,
        step (step s (Action.discovery env)) (Action.discovery env2)
          = step s (Action.discovery env)) ∧
    (s.ModemIds ≠ [] → env.output ≠ "No modems were found\n" → s.shutdown = false →
      env.listErr = none →
      step s (Action.discovery env)
        = { s with enableCmds := s.enableCmds ++ (enablePass env.enable s.ModemIds).1,
                   discovery := match (enablePass env.enable s.ModemIds).2 with
                     | some e => DiscoveryPC.returned e
                     | none => DiscoveryPC.running }) := by
  constructor
  · intro hcase
    have hcase2 : (parseModemIDs env.output = [] ∧ s.ModemIds = []) ∨
        env.output = "No modems were found\n" := by
      rcases hcase with h | h
      · exact Or.inl ⟨hnone, h⟩
      · exact Or.inr h
    obtain ⟨e, he⟩ := enableModemsIter_none_found s.shutdown hcase2
    have hstep := stepDiscovery_returned env hd he rfl
    rw [← step_discovery_running env hh] at hstep
    refine ⟨⟨e, by rw [he], by rw [hstep]⟩, by rw [he], by rw [hstep]; simp, by rw [hstep],
      fun env2 => ?_⟩
    exact step_discovery_done env2 (by rw [hstep])
  · intro hne ho hs hl
    have hne2 : (parseModemIDs env.output).foldl merge s.ModemIds ≠ [] := by
      rw [hnone]; exact hne
    have hr := enableModemsIter_enable hs hl ho hne2
    rw [hs] at hr
    rw [step_discovery_running env hh]
    simp only [hnone, List.foldl_nil] at hr
    unfold stepDiscovery
    rw [hd]
    simp only [hs, hr]

/-- C7, amended, at the start of the program: the registry is empty and
`mmcli -L` prints `No modems were found`: `enableModems` returns the error
`no modems were found` and has run no enable command. -/
theorem zero_endpoints_terminates_discovery_witness :
    (step (init 100 3) (Action.discovery ⟨none, "No modems were found\n", fun _ => none⟩)).discovery
        = DiscoveryPC.returned "no modems were found" ∧
    (step (init 100 3)
        (Action.discovery ⟨none, "No modems were found\n", fun _ => none⟩)).enableCmds = [] :=
  ⟨by decide,
   ((zero_endpoints_terminates_discovery (init 100 3)
      ⟨none, "No modems were found\n", fun _ => none⟩ rfl (by decide) (by decide)).1
        (Or.inl rfl)).2.2.1⟩

/-- C8 as stated fails: the enable command of the only endpoint fails with
`exit status 1`; `enableModems` returns that error and no later iteration
runs (a further discovery step changes nothing). -/
theorem enable_failure_counterexample :
    (step (init 100 3)
      (Action.discovery ⟨none, "/Modem/0 a\n", fun _ => some "exit status 1"⟩)).discovery
        = DiscoveryPC.returned "exit status 1" ∧
    step (step (init 100 3)
        (Action.discovery ⟨none, "/Modem/0 a\n", fun _ => some "exit status 1"⟩))
        (Action.discovery ⟨none, "/Modem/0 a\n", fun _ => none⟩)
      = step (init 100 3)
        (Action.discovery ⟨none, "/Modem/0 a\n", fun _ => some "exit status 1"⟩) := by
  decide

/-- C8, amended: an enable failure ends the discovery loop.  When the listing
was read and the enable command of some identifier of the registry fails,
the iteration runs the enable commands in registry order up to the first one
that fails, `enableModems` returns the error of that command without enabling
the remaining endpoints, and no further iteration runs; the registry keeps
the merged identifiers and nothing else of the program changes. -/
theorem enable_failure_ends_discovery (s : State) (env : DiscEnv) (id e : String)
    (hd : s.discovery = DiscoveryPC.running) (hh : s.halted = false)
    (hs : s.shutdown = false) (hl : env.listErr = none)
    (ho : env.output ≠ "No modems were found\n")
    (hid : id ∈ (parseModemIDs env.output).foldl merge s.ModemIds)
    (hfail : env.enable id = some e) :
    ∃ (ok : List String) (bad : String) (rest : List String) (e1 : String),
      (parseModemIDs env.output).foldl merge s.ModemIds = ok ++ bad :: rest ∧
      (∀ x ∈ ok, env.enable x = none) ∧ env.enable bad = some e1 ∧
      step s (Action.discovery env)
        = { s with ModemIds := ok ++ bad :: rest,
                   enableCmds := s.enableCmds ++ (ok ++ [bad]),
                   discovery := DiscoveryPC.returned e1 } ∧
      ∀ env2 : DiscEnv,
        step (step s (Action.discovery env)) (Action.discovery env2)
          = step s (Action.discovery env) := by
  have hne : (parseModemIDs env.output).foldl merge s.ModemIds ≠ [] :=
    List.ne_nil_of_mem hid
  rcases enablePass_spec env.enable ((parseModemIDs env.output).foldl merge s.ModemIds) with
    ⟨hall, _⟩ | ⟨ok, bad, rest, e1, hids, hok, hbad, hp⟩
  · rw [hall id hid] at hfail; cases hfail
  · have hr := enableModemsIter_enable hs hl ho hne
    have hstep := stepDiscovery_returned (e := e1) env hd hr (by simp [hp])
    rw [← step_discovery_running env hh] at hstep
    simp only [hp] at hstep
    rw [hids] at hstep
    refine ⟨ok, bad, rest, e1, hids, hok, hbad, hstep, fun env2 => ?_⟩
    exact step_discovery_done env2 (by rw [hstep])

/-- C8, amended, on two endpoints of which the first fails to enable: only the
first enable command is run and the loop has ended with its error. -/
theorem enable_failure_ends_discovery_witness :
    ∃ (ok : List String) (bad : String) (rest : List String) (e1 : String),
      (parseModemIDs "/Modem/0 a\n/Modem/1 b\n").foldl merge (init 100 3).ModemIds
        = ok ++ bad :: rest ∧
      (∀ x ∈ ok, (fun _ => some "exit status 1" : String → Option String) x = none) ∧
      (fun _ => some "exit status 1" : String → Option String) bad = some e1 ∧
      step (init 100 3)
          (Action.discovery ⟨none, "/Modem/0 a\n/Modem/1 b\n", fun _ => some "exit status 1"⟩)
        = { init 100 3 with ModemIds := ok ++ bad :: rest,
                            enableCmds := (init 100 3).enableCmds ++ (ok ++ [bad]),
                            discovery := DiscoveryPC.returned e1 } ∧
      ∀ env2 : DiscEnv,
        step (step (init 100 3)
          (Action.discovery ⟨none, "/Modem/0 a\n/Modem/1 b\n", fun _ => some "exit status 1"⟩))
          (Action.discovery env2)
          = step (init 100 3)
          (Action.discovery ⟨none, "/Modem/0 a\n/Modem/1 b\n", fun _ => some "exit status 1"⟩) :=
  enable_failure_ends_discovery (init 100 3)
    ⟨none, "/Modem/0 a\n/Modem/1 b\n", fun _ => some "exit status 1"⟩ "/Modem/0" "exit status 1"
    rfl (by decide) rfl rfl (by decide) (by decide) rfl

/-! ## Workers and send failures -/

theorem getElem?_set_new {ws : List WorkerPC} {i j : Nat} {new w : WorkerPC}
    (h : (ws.set i new)[j]? = some w) (hne : new ≠ w) : ws[j]? = some w := by
  rw [List.getElem?_set] at h
  split at h
  · split at h
    · exact absurd (Option.some.inj h) hne
    · cases h
  · exact h

theorem step_signal_running {s : State} (hh : s.halted = false) :
    step s Action.signal = { s with shutdown := true } := by
  simp [step, hh]

theorem step_main_running {s : State} (hh : s.halted = false) :
    step s Action.main = stepMain s := by
  simp [step, hh]

/-- A worker returns only in a step that finds the queue closed and empty. -/
theorem workerRecv_exit {s : State} {i j : Nat} (busy : message → WorkerPC)
    (hbusy : ∀ m, busy m ≠ WorkerPC.exited)
    (h : (workerRecv s i busy).workers[j]? = some WorkerPC.exited)
    (hj : s.workers[j]? ≠ some WorkerPC.exited) :
    s.modemQueue.closed = true ∧ s.modemQueue.buf = [] := by
  cases hb : s.modemQueue.buf with
  | nil =>
    cases hc : s.modemQueue.closed with
    | false => rw [workerRecv_blocked i busy hb hc] at h; exact absurd h hj
    | true => exact ⟨rfl, rfl⟩
  | cons msg rest =>
    rw [workerRecv_take i busy hb] at h
    exact absurd (getElem?_set_new h (hbusy msg)) hj

theorem stepWorker_exit {s : State} {i j : Nat} {pick : Bool} {sendErr : Option String}
    (h : (stepWorker s i pick sendErr).workers[j]? = some WorkerPC.exited)
    (hj : s.workers[j]? ≠ some WorkerPC.exited) :
    s.modemQueue.closed = true ∧ s.modemQueue.buf = [] := by
  cases hi : s.workers[i]? with
  | none => rw [stepWorker_none pick sendErr hi] at h; exact absurd h hj
  | some w =>
    cases w with
    | idle =>
      rcases stepWorker_idle pick sendErr hi with he | ⟨_, he⟩ | he <;> rw [he] at h
      · exact absurd h hj
      · exact absurd (getElem?_set_new h (by simp)) hj
      · exact workerRecv_exit _ (by simp) h hj
    | sending msg =>
      rw [stepWorker_sending pick sendErr hi] at h
      exact absurd (getElem?_set_new h (by simp)) hj
    | draining =>
      rw [stepWorker_draining pick sendErr hi] at h
      exact workerRecv_exit _ (by simp) h hj
    | drainSending msg =>
      rw [stepWorker_drainSending pick sendErr hi] at h
      exact absurd (getElem?_set_new h (by simp)) hj
    | exited => rw [stepWorker_exited pick sendErr hi] at h; exact absurd h hj

theorem step_exit {s : State} {a : Action} {j : Nat}
    (h : (step s a).workers[j]? = some WorkerPC.exited)
    (hj : s.workers[j]? ≠ some WorkerPC.exited) :
    s.modemQueue.closed = true ∧ s.modemQueue.buf = [] := by
  cases hh : s.halted with
  | true => rw [step_halted a hh] at h; exact absurd h hj
  | false =>
    cases a with
    | signal => rw [step_signal_running hh] at h; exact absurd h hj
    | discovery env =>
      rw [step_discovery_running env hh, (stepDiscovery_frame s env).2.2.2.2.2] at h
      exact absurd h hj
    | producer src pick =>
      rw [step_producer_running src pick hh, (stepProducer_frame s src pick).2.1] at h
      exact absurd h hj
    | worker i pick sendErr =>
      rw [step_worker_running i pick sendErr hh] at h
      exact stepWorker_exit h hj
    | main =>
      rw [step_main_running hh, (stepMain_frame s).2.2.2.2.2.2.1] at h
      exact absurd h hj

/-- C5: a send failure never terminates a worker.  Whatever `sendSMS` returns,
the step of a worker leads to the same state but for the record of the
result; in particular a worker whose `sendSMS` returns an error is back at its
`select` (normal operation) or at its `range` (drain mode), ready for the next
message.  And in any step of the program a worker returns only if that step
found the queue closed and empty. -/
theorem send_failure_never_terminates_worker (s : State) (i : Nat) (pick : Bool) (e : String) :
    { step s (Action.worker i pick (some e)) with
        sent := (step s (Action.worker i pick none)).sent }
      = step s (Action.worker i pick none) ∧
    (∀ msg : message, s.halted = false → s.workers[i]? = some (WorkerPC.sending msg) →
      (step s (Action.worker i pick (some e))).workers[i]? = some WorkerPC.idle ∧
      (step s (Action.worker i pick (some e))).sent = s.sent ++ [(msg, some e)]) ∧
    (∀ msg : message, s.halted = false → s.workers[i]? = some (WorkerPC.drainSending msg) →
      (step s (Action.worker i pick (some e))).workers[i]? = some WorkerPC.draining ∧
      (step s (Action.worker i pick (some e))).sent = s.sent ++ [(msg, some e)]) ∧
    (∀ (a : Action) (j : Nat), (step s a).workers[j]? = some WorkerPC.exited →
      s.workers[j]? ≠ some WorkerPC.exited →
      s.modemQueue.closed = true ∧ s.modemQueue.buf = []) := by
  have hlen : ∀ {w : WorkerPC}, s.workers[i]? = some w → i < s.workers.length := by
    intro w hw
    exact (List.getElem?_eq_some_iff.mp hw).1
  refine ⟨?_, ?_, ?_, fun a j h hj => step_exit h hj⟩
  · cases hh : s.halted with
    | true => rw [step_halted _ hh, step_halted _ hh]
    | false =>
      rw [step_worker_running _ _ _ hh, step_worker_running _ _ _ hh]
      cases hi : s.workers[i]? with
      | none => rw [stepWorker_none _ _ hi, stepWorker_none _ _ hi]
      | some w =>
        cases w with
        | idle =>
          have : stepWorker s i pick (some e) = stepWorker s i pick none := by
            unfold stepWorker; rw [hi]
          rw [this]
        | sending msg => rw [stepWorker_sending _ _ hi, stepWorker_sending _ _ hi]
        | draining => rw [stepWorker_draining _ _ hi, stepWorker_draining _ _ hi]
        | drainSending msg =>
          rw [stepWorker_drainSending _ _ hi, stepWorker_drainSending _ _ hi]
        | exited => rw [stepWorker_exited _ _ hi, stepWorker_exited _ _ hi]
  · intro msg hh hi
    rw [step_worker_running _ _ _ hh, stepWorker_sending _ _ hi]
    exact ⟨List.getElem?_set_self (hlen hi), rfl⟩
  · intro msg hh hi
    rw [step_worker_running _ _ _ hh, stepWorker_drainSending _ _ hi]
    exact ⟨List.getElem?_set_self (hlen hi), rfl⟩

/-- C5 on a run: worker 0 is sending the message of `getMessage`; `sendSMS`
fails with `exit status 1`; the worker is back at its `select`. -/
theorem send_failure_never_terminates_worker_witness :
    (run (init 100 3) oneInFlight).workers[0]?
        = some (WorkerPC.sending ⟨"+99361041499", "Hello, world!", "/Modem/0"⟩) ∧
    (step (run (init 100 3) oneInFlight)
        (Action.worker 0 true (some "exit status 1"))).workers[0]? = some WorkerPC.idle :=
  ⟨by decide,
   ((send_failure_never_terminates_worker (run (init 100 3) oneInFlight) 0 true
      "exit status 1").2.1 ⟨"+99361041499", "Hello, world!", "/Modem/0"⟩
      (by decide) (by decide)).1⟩

/-! ## Conservation of messages -/

theorem passBody_effect (q : Chan) (shutdown : Bool) (modemID : String)
    (src : message × Option String) (pick : Bool) :
    ((passBody q shutdown modemID src pick).2 ≠ Flow.enqueued ∧
      (passBody q shutdown modemID src pick).1.buf = q.buf) ∨
    passBody q shutdown modemID src pick
      = ({ q with buf := q.buf ++ [src.1.setModemID modemID] }, Flow.enqueued) := by
  cases he : src.2 with
  | some e =>
    left
    rw [passBody_source_error q shutdown modemID src pick he]
    exact ⟨by simp, rfl⟩
  | none =>
    rw [passBody_source_ok q shutdown modemID src pick he]
    unfold enqueueSelect
    cases q.sendReady <;> cases shutdown <;> cases pick <;> cases hc : q.closed <;>
      simp [sendCase, shutdownCase, Chan.close, hc]

theorem stepProducer_effect (s : State) (src : message × Option String) (pick : Bool) :
    QueueEffect s (stepProducer s src pick) := by
  cases hp : s.producer with
  | exited => rw [stepProducer_exited src pick hp]; exact Or.inl ⟨rfl, rfl, rfl⟩
  | panicked =>
    have : stepProducer s src pick = s := by simp [stepProducer, hp]
    rw [this]; exact Or.inl ⟨rfl, rfl, rfl⟩
  | top =>
    cases hs : s.shutdown <;> cases hc : s.modemQueue.closed <;>
      by_cases he : s.ModemIds = [] <;>
      simp [stepProducer, hp, hs, hc, he, Chan.close, QueueEffect]
  | pass reg =>
    cases reg with
    | nil => rw [stepProducer_pass_nil src pick hp]; exact Or.inl ⟨rfl, rfl, rfl⟩
    | cons modemID rest =>
      rcases passBody_effect s.modemQueue s.shutdown modemID src pick with ⟨hf, hq⟩ | hb
      · cases hb : passBody s.modemQueue s.shutdown modemID src pick with
        | mk q1 f =>
          rw [hb] at hf hq
          simp only at hf hq
          cases f with
          | enqueued => exact absurd rfl hf
          | skipped => left; simp [stepProducer, hp, hb, hq]
          | full => left; simp [stepProducer, hp, hb, hq]
          | returned => left; simp [stepProducer, hp, hb, hq]
          | panicked => left; simp [stepProducer, hp, hb]
      · rw [stepProducer_pass_enqueued hp hb]
        exact Or.inr (Or.inl ⟨_, rfl, rfl, rfl⟩)

theorem workerRecv_effect (s : State) (i : Nat) (busy : message → WorkerPC) :
    QueueEffect s (workerRecv s i busy) := by
  cases hb : s.modemQueue.buf with
  | nil =>
    cases hc : s.modemQueue.closed with
    | false => rw [workerRecv_blocked i busy hb hc]; exact Or.inl ⟨rfl, rfl, rfl⟩
    | true => rw [workerRecv_closed i busy hb hc]; exact Or.inl ⟨rfl, rfl, rfl⟩
  | cons msg rest =>
    rw [workerRecv_take i busy hb]
    exact Or.inr (Or.inr ⟨msg, hb, rfl, rfl⟩)

theorem stepWorker_effect (s : State) (i : Nat) (pick : Bool) (sendErr : Option String) :
    QueueEffect s (stepWorker s i pick sendErr) := by
  cases hi : s.workers[i]? with
  | none => rw [stepWorker_none pick sendErr hi]; exact Or.inl ⟨rfl, rfl, rfl⟩
  | some w =>
    cases w with
    | idle =>
      rcases stepWorker_idle pick sendErr hi with he | ⟨_, he⟩ | he <;> rw [he]
      · exact Or.inl ⟨rfl, rfl, rfl⟩
      · exact Or.inl ⟨rfl, rfl, rfl⟩
      · exact workerRecv_effect s i _
    | sending msg => rw [stepWorker_sending pick sendErr hi]; exact Or.inl ⟨rfl, rfl, rfl⟩
    | draining => rw [stepWorker_draining pick sendErr hi]; exact workerRecv_effect s i _
    | drainSending msg =>
      rw [stepWorker_drainSending pick sendErr hi]; exact Or.inl ⟨rfl, rfl, rfl⟩
    | exited => rw [stepWorker_exited pick sendErr hi]; exact Or.inl ⟨rfl, rfl, rfl⟩

theorem step_effect (s : State) (a : Action) : QueueEffect s (step s a) := by
  cases hh : s.halted with
  | true => rw [step_halted a hh]; exact Or.inl ⟨rfl, rfl, rfl⟩
  | false =>
    cases a with
    | signal => rw [step_signal_running hh]; exact Or.inl ⟨rfl, rfl, rfl⟩
    | discovery env =>
      rw [step_discovery_running env hh]
      unfold stepDiscovery
      split <;> exact Or.inl ⟨rfl, rfl, rfl⟩
    | producer src pick => rw [step_producer_running src pick hh]; exact stepProducer_effect s src pick
    | worker i pick sendErr =>
      rw [step_worker_running i pick sendErr hh]; exact stepWorker_effect s i pick sendErr
    | main =>
      rw [step_main_running hh]
      unfold stepMain
      repeat' split
      all_goals exact Or.inl ⟨rfl, rfl, rfl⟩

theorem stepProducer_closes {s : State} (h : Inv s) (src : message × Option String)
    (pick : Bool) :
    (stepProducer s src pick).closes = s.closes ∨
    (s.shutdown = true ∧ s.modemQueue.closed = false ∧
      (stepProducer s src pick).closes = s.closes + 1 ∧
      (stepProducer s src pick).modemQueue.closed = true ∧
      (stepProducer s src pick).producer = ProducerPC.exited) := by
  cases hp : s.producer with
  | exited => rw [stepProducer_exited src pick hp]; exact Or.inl rfl
  | panicked => exact absurd hp h.noPanic
  | top =>
    obtain ⟨hopen, -, -, -, -⟩ := producer_open h (by rw [hp]; simp)
    cases hs : s.shutdown with
    | true =>
      rw [stepProducer_top_shutdown src pick hp hs hopen]
      exact Or.inr ⟨rfl, hopen, rfl, rfl, rfl⟩
    | false =>
      by_cases he : s.ModemIds = []
      · rw [stepProducer_top_idle src pick hp hs he]; exact Or.inl rfl
      · rw [stepProducer_top_start src pick hp hs he]; exact Or.inl rfl
  | pass reg =>
    obtain ⟨hopen, -, -, -, -⟩ := producer_open h (by rw [hp]; simp)
    cases reg with
    | nil => rw [stepProducer_pass_nil src pick hp]; exact Or.inl rfl
    | cons modemID rest =>
      rcases passBody_cases s.modemQueue s.shutdown modemID src pick hopen with
        hb | hb | hb | ⟨hs, hb⟩
      · rw [stepProducer_pass_skipped hp hb]; exact Or.inl rfl
      · rw [stepProducer_pass_full hp hb]; exact Or.inl rfl
      · rw [stepProducer_pass_enqueued hp hb]; exact Or.inl rfl
      · rw [stepProducer_pass_returned hp hb]
        exact Or.inr ⟨hs, hopen, rfl, rfl, rfl⟩

theorem step_closes {s : State} (h : Inv s) (a : Action) :
    (step s a).closes = s.closes ∨
    ((∃ src pick, a = Action.producer src pick) ∧ s.shutdown = true ∧
      s.modemQueue.closed = false ∧ (step s a).closes = s.closes + 1 ∧
      (step s a).modemQueue.closed = true ∧ (step s a).producer = ProducerPC.exited) := by
  cases hh : s.halted with
  | true => rw [step_halted a hh]; exact Or.inl rfl
  | false =>
    cases a with
    | signal => rw [step_signal_running hh]; exact Or.inl rfl
    | discovery env =>
      rw [step_discovery_running env hh]; exact Or.inl (stepDiscovery_frame s env).2.2.1
    | producer src pick =>
      rw [step_producer_running src pick hh]
      rcases stepProducer_closes h src pick with hc | hc
      · exact Or.inl hc
      · exact Or.inr ⟨⟨src, pick, rfl⟩, hc⟩
    | worker i pick sendErr =>
      rw [step_worker_running i pick sendErr hh]
      exact Or.inl (stepWorker_frame s i pick sendErr).2.2.2.1
    | main => rw [step_main_running hh]; exact Or.inl (stepMain_frame s).2.2.2.1

/-! ## Enqueue after shutdown -/

/-- C3 fails on the code: discovery has registered a modem and the producer
has started its pass when shutdown is signalled; the queue has room, so at the
`select` of line 79 both the send and the receive from `shutdown` can
proceed, and when the runtime picks the send the message is enqueued although
shutdown was signalled a step before. -/
theorem enqueue_after_shutdown :
    (run (init 100 3)
      [Action.discovery ⟨none, "/Modem/0 a\n", fun _ => none⟩,
       Action.producer getMessage true,
       Action.signal]).shutdown = true ∧
    (run (init 100 3)
      [Action.discovery ⟨none, "/Modem/0 a\n", fun _ => none⟩,
       Action.producer getMessage true,
       Action.signal]).enqueued = [] ∧
    (step (run (init 100 3)
      [Action.discovery ⟨none, "/Modem/0 a\n", fun _ => none⟩,
       Action.producer getMessage true,
       Action.signal]) (Action.producer getMessage true)).enqueued
      = [⟨"+99361041499", "Hello, world!", "/Modem/0"⟩] ∧
    (step (run (init 100 3)
      [Action.discovery ⟨none, "/Modem/0 a\n", fun _ => none⟩,
       Action.producer getMessage true,
       Action.signal]) (Action.producer getMessage true)).modemQueue.buf
      = [⟨"+99361041499", "Hello, world!", "/Modem/0"⟩] := by
  decide

/-! ## Draining at shutdown -/

/-- C4 as stated fails: shutdown is signalled with 5 messages buffered and 3
workers running; in drain mode worker 2 returns as soon as the queue is closed
and empty, while the calls of `sendSMS` for the 4th and 5th message, taken by
workers 0 and 1, are still running: only 3 of the 5 messages have been sent
when the first worker exits. -/
theorem drain_exit_counterexample :
    (run (init 100 3) fiveQueued).shutdown = true ∧
    (run (init 100 3) fiveQueued).modemQueue.buf
      = [msgFor "/Modem/0", msgFor "/Modem/1", msgFor "/Modem/2", msgFor "/Modem/3",
         msgFor "/Modem/4"] ∧
    (run (init 100 3) fiveQueued).workers = [WorkerPC.idle, WorkerPC.idle, WorkerPC.idle] ∧
    (run (run (init 100 3) fiveQueued) drainRace).workers
      = [WorkerPC.drainSending (msgFor "/Modem/3"), WorkerPC.drainSending (msgFor "/Modem/4"),
         WorkerPC.exited] ∧
    (run (run (init 100 3) fiveQueued) drainRace).sent
      = [(msgFor "/Modem/0", none), (msgFor "/Modem/1", none), (msgFor "/Modem/2", none)] := by
  decide

theorem enqueued_prefix_step (s : State) (a : Action) : s.enqueued <+: (step s a).enqueued := by
  rcases step_effect s a with ⟨-, h, -⟩ | ⟨m, -, h, -⟩ | ⟨m, -, h, -⟩
  · rw [h]
  · rw [h]; exact List.prefix_append _ _
  · rw [h]

theorem enqueued_prefix_run (as : List Action) :
    ∀ s : State, s.enqueued <+: (run s as).enqueued := by
  induction as with
  | nil => intro s; exact List.prefix_refl _
  | cons a as ih => intro s; exact (enqueued_prefix_step s a).trans (ih (step s a))

theorem workerRecv_length (s : State) (i : Nat) (busy : message → WorkerPC) :
    (workerRecv s i busy).workers.length = s.workers.length := by
  unfold workerRecv
  repeat' split
  all_goals simp

theorem stepWorker_length (s : State) (i : Nat) (pick : Bool) (sendErr : Option String) :
    (stepWorker s i pick sendErr).workers.length = s.workers.length := by
  unfold stepWorker
  repeat' split
  all_goals first
    | rfl
    | exact workerRecv_length s i _
    | simp

theorem step_length (s : State) (a : Action) :
    (step s a).workers.length = s.workers.length := by
  cases hh : s.halted with
  | true => rw [step_halted a hh]
  | false =>
    cases a with
    | signal => rw [step_signal_running hh]
    | discovery env =>
      rw [step_discovery_running env hh, (stepDiscovery_frame s env).2.2.2.2.2]
    | producer src pick =>
      rw [step_producer_running src pick hh, (stepProducer_frame s src pick).2.1]
    | worker i pick sendErr =>
      rw [step_worker_running i pick sendErr hh]; exact stepWorker_length s i pick sendErr
    | main => rw [step_main_running hh, (stepMain_frame s).2.2.2.2.2.2.1]

theorem run_length (as : List Action) :
    ∀ s : State, (run s as).workers.length = s.workers.length := by
  induction as with
  | nil => intro s; rfl
  | cons a as ih => intro s; exact (ih (step s a)).trans (step_length s a)

/-- C4, amended: with at least one worker started, a worker exits only once
the queue is closed and empty, so that every message put on the queue (among
them every message buffered at an earlier moment, such as when shutdown was
signalled) has by then been taken by a worker, which calls `sendSMS` on it at
once; and when the wait of `main` has returned every worker has exited and
every such message has been through a finished call of `sendSMS`. -/
theorem drain_before_exit (cap workerCount : Nat) (as0 as1 : List Action)
    (hw : 0 < workerCount) :
    let s0 := run (init cap workerCount) as0
    let s := run s0 as1
    (WorkerPC.exited ∈ s.workers →
      s.modemQueue.closed = true ∧ s.modemQueue.buf = [] ∧ s.handed = s.enqueued ∧
      ∀ m ∈ s0.modemQueue.buf, m ∈ s.handed) ∧
    (s.mainPC = MainPC.complete →
      (∀ w ∈ s.workers, w = WorkerPC.exited) ∧
      (s.sent.map Prod.fst).Perm s.enqueued ∧
      ∀ m ∈ s0.modemQueue.buf, m ∈ s.sent.map Prod.fst) := by
  intro s0 s
  have h0 : Inv s0 := inv_reachable cap workerCount as0
  have h : Inv s := inv_run as1 s0 h0
  have hmem : ∀ m ∈ s0.modemQueue.buf, m ∈ s.enqueued := by
    intro m hm
    have : m ∈ s0.enqueued := by rw [h0.fifo]; exact List.mem_append_right _ hm
    exact (enqueued_prefix_run as1 s0).subset this
  have hexit : WorkerPC.exited ∈ s.workers →
      s.modemQueue.closed = true ∧ s.modemQueue.buf = [] ∧ s.handed = s.enqueued := by
    intro hx
    obtain ⟨hc, hb⟩ := h.exitedEmpty hx
    refine ⟨hc, hb, ?_⟩
    have := h.fifo
    rw [hb, List.append_nil] at this
    exact this.symm
  constructor
  · intro hx
    obtain ⟨hc, hb, hh⟩ := hexit hx
    exact ⟨hc, hb, hh, fun m hm => by rw [hh]; exact hmem m hm⟩
  · intro hm
    have hw0 : liveWorkers s.workers = 0 := by
      have := h.mainWait hm
      rw [h.wgLive] at this
      exact_mod_cast this
    have hall := liveWorkers_eq_zero s.workers hw0
    have hperm := h.sentPerm
    rw [inFlight_all_exited s.workers hall, List.append_nil] at hperm
    have hlen : s.workers.length = workerCount := by
      have e1 : s.workers.length = s0.workers.length := run_length as1 s0
      have e2 : s0.workers.length = (init cap workerCount).workers.length := run_length as0 _
      rw [e1, e2]
      simp [init]
    have hx : WorkerPC.exited ∈ s.workers := by
      cases hws : s.workers with
      | nil => rw [hws] at hlen; simp at hlen; omega
      | cons w ws =>
        have := hall w (by rw [hws]; exact List.mem_cons_self _ _)
        rw [this]; exact List.mem_cons_self _ _
    obtain ⟨-, -, hh⟩ := hexit hx
    rw [hh] at hperm
    exact ⟨hall, hperm, fun m hm => hperm.symm.subset (hmem m hm)⟩

set_option maxRecDepth 100000

/-- C4, amended, on the scenario of the specification run to its end: 5
messages buffered and 3 workers running at shutdown; when the wait of `main`
has returned the 3 workers have exited and the 5 messages have been sent. -/
theorem drain_before_exit_witness :
    (run (run (init 100 3) fiveQueued) (drainRace ++ drainEnd)).mainPC = MainPC.complete ∧
    ((∀ w ∈ (run (run (init 100 3) fiveQueued) (drainRace ++ drainEnd)).workers,
        w = WorkerPC.exited) ∧
      ((run (run (init 100 3) fiveQueued) (drainRace ++ drainEnd)).sent.map Prod.fst).Perm
        (run (run (init 100 3) fiveQueued) (drainRace ++ drainEnd)).enqueued ∧
      ∀ m ∈ (run (init 100 3) fiveQueued).modemQueue.buf,
        m ∈ (run (run (init 100 3) fiveQueued) (drainRace ++ drainEnd)).sent.map Prod.fst) :=
  ⟨by decide,
   (drain_before_exit 100 3 fiveQueued (drainRace ++ drainEnd) (by decide)).2 (by decide)⟩

/-! ## The pass of the producer in the program -/

theorem producer_running {s : State} (h : Inv s) (hp : s.producer ≠ ProducerPC.exited) :
    s.halted = false := by
  obtain ⟨-, -, -, hm, -⟩ := producer_open h hp
  simp [State.halted, hm, h.noPanic]

theorem enqueueSelect_shutdown {q : Chan} (msg : message) {pick : Bool}
    (hopen : q.closed = false) (hc : pick = false ∨ q.cap ≤ q.buf.length) :
    enqueueSelect q true msg pick
      = ({ buf := q.buf, cap := q.cap, closed := true }, Flow.returned) := by
  unfold enqueueSelect
  rcases hc with hc | hc
  · subst hc
    cases hr : q.sendReady <;> simp [shutdownCase, Chan.close, hopen]
  · have hr : q.sendReady = false := by
      simp [Chan.sendReady, hopen, hc]
    simp [hr, shutdownCase, Chan.close, hopen]

theorem step_top_closes {s : State} (h : Inv s) (src : message × Option String) (pick : Bool)
    (hp : s.producer = ProducerPC.top) (hs : s.shutdown = true) :
    step s (Action.producer src pick) = closedAndReturned s := by
  obtain ⟨hopen, -, -, -, hc0⟩ := producer_open h (by rw [hp]; simp)
  rw [step_producer_running src pick (producer_running h (by rw [hp]; simp)),
    stepProducer_top_shutdown src pick hp hs hopen]
  simp [closedAndReturned, hc0]

theorem step_select_closes {s : State} (h : Inv s) (msg : message) {pick : Bool}
    {modemID : String} {rest : List String}
    (hp : s.producer = ProducerPC.pass (modemID :: rest)) (hs : s.shutdown = true)
    (hc : pick = false ∨ s.modemQueue.cap ≤ s.modemQueue.buf.length) :
    step s (Action.producer (msg, none) pick) = closedAndReturned s := by
  obtain ⟨hopen, -, -, -, hc0⟩ := producer_open h (by rw [hp]; simp)
  have hb : passBody s.modemQueue s.shutdown modemID (msg, none) pick
      = ({ buf := s.modemQueue.buf, cap := s.modemQueue.cap, closed := true },
          Flow.returned) := by
    rw [passBody_source_ok _ _ _ _ _ rfl, hs]
    exact enqueueSelect_shutdown _ hopen hc
  rw [step_producer_running _ pick (producer_running h (by rw [hp]; simp)),
    stepProducer_pass_returned hp hb]
  simp [closedAndReturned, hc0]

theorem step_shutdown_stays (s : State) (a : Action) (hs : s.shutdown = true) :
    (step s a).shutdown = true := by
  cases hh : s.halted with
  | true => rw [step_halted a hh]; exact hs
  | false =>
    cases a with
    | signal => rw [step_signal_running hh]
    | discovery env =>
      rw [step_discovery_running env hh, (stepDiscovery_frame s env).2.1]; exact hs
    | producer src pick =>
      rw [step_producer_running src pick hh, (stepProducer_frame s src pick).2.2.1]; exact hs
    | worker i pick sendErr =>
      rw [step_worker_running i pick sendErr hh, (stepWorker_frame s i pick sendErr).2.2.1]
      exact hs
    | main => rw [step_main_running hh, (stepMain_frame s).2.2.1]; exact hs

theorem step_producer_pending {s : State} (h : Inv s) (hs : s.shutdown = true)
    (src : message × Option String) (pick : Bool) :
    pending (step s (Action.producer src pick)).producer ≤ pending s.producer - 1 := by
  cases hp : s.producer with
  | exited =>
    have : step s (Action.producer src pick) = s := by
      cases hh : s.halted with
      | true => exact step_halted _ hh
      | false => rw [step_producer_running src pick hh]; exact stepProducer_exited src pick hp
    rw [this, hp]; simp [pending]
  | panicked => exact absurd hp h.noPanic
  | top =>
    rw [step_top_closes h src pick hp hs]
    simp [closedAndReturned, pending]
  | pass reg =>
    obtain ⟨hopen, -, -, -, -⟩ := producer_open h (by rw [hp]; simp)
    rw [step_producer_running src pick (producer_running h (by rw [hp]; simp))]
    cases reg with
    | nil => rw [stepProducer_pass_nil src pick hp]; simp [pending]
    | cons modemID rest =>
      rcases passBody_cases s.modemQueue s.shutdown modemID src pick hopen with
        hb | hb | hb | ⟨_, hb⟩
      · rw [stepProducer_pass_skipped hp hb]; simp [pending]
      · rw [stepProducer_pass_full hp hb]; simp [pending]
      · rw [stepProducer_pass_enqueued hp hb]; simp [pending]
      · rw [stepProducer_pass_returned hp hb]; simp [pending]

theorem step_other_producer (s : State) (a : Action)
    (ha : ∀ src pick, a ≠ Action.producer src pick) : (step s a).producer = s.producer := by
  cases hh : s.halted with
  | true => rw [step_halted a hh]
  | false =>
    cases a with
    | signal => rw [step_signal_running hh]
    | discovery env => rw [step_discovery_running env hh, (stepDiscovery_frame s env).1]
    | producer src pick => exact absurd rfl (ha src pick)
    | worker i pick sendErr =>
      rw [step_worker_running i pick sendErr hh, (stepWorker_frame s i pick sendErr).2.1]
    | main => rw [step_main_running hh, (stepMain_frame s).2.1]

theorem run_pending (as : List Action) :
    ∀ s : State, Inv s → s.shutdown = true → pending s.producer ≤ producerMoves as →
      pending (run s as).producer = 0 := by
  induction as with
  | nil =>
    intro s _ _ hle
    simp only [producerMoves] at hle
    exact Nat.le_zero.mp hle
  | cons a as ih =>
    intro s h hs hle
    show pending (run (step s a) as).producer = 0
    apply ih (step s a) (inv_step s a h) (step_shutdown_stays s a hs)
    cases a with
    | producer src pick =>
      have h1 := step_producer_pending h hs src pick
      simp only [producerMoves] at hle
      omega
    | signal =>
      rw [step_other_producer s _ (by intro _ _ hc; cases hc)]
      simpa [producerMoves] using hle
    | discovery env =>
      rw [step_other_producer s _ (by intro _ _ hc; cases hc)]
      simpa [producerMoves] using hle
    | worker i pick sendErr =>
      rw [step_other_producer s _ (by intro _ _ hc; cases hc)]
      simpa [producerMoves] using hle
    | main =>
      rw [step_other_producer s _ (by intro _ _ hc; cases hc)]
      simpa [producerMoves] using hle

theorem exited_of_pending {s : State} (h : Inv s) (hp : pending s.producer = 0) :
    s.producer = ProducerPC.exited := by
  cases hpc : s.producer with
  | exited => rfl
  | panicked => exact absurd hpc h.noPanic
  | top => rw [hpc] at hp; simp [pending] at hp
  | pass reg => rw [hpc] at hp; simp [pending] at hp

/-- C10: the dispatch queue is closed exactly once, by the producer, on
observing shutdown.  In every state `s` the program reaches and for every
step from it: `close(modemQueue)` has run at most once, it has run exactly
when the queue is closed and exactly when the producer has returned, and no
panic (close of a closed queue) has happened; a step that runs the close is a
step of the producer taken with shutdown signalled and the queue still open,
and it leaves the producer returned; the closed flag of the queue changes in
no other step; once returned the producer does nothing more.  The close does
happen: a move of the producer at the `select` of line 58 with shutdown
signalled, and a move at the `select` of line 79 with shutdown signalled in
which the receive from `shutdown` runs (the queue is full, or the runtime
picks it), closes the queue, which makes the count of closes 1, and returns;
and once shutdown is signalled, under every schedule in which the producer
makes as many moves as its pass has left plus two, the producer has returned
and the queue has been closed, once. -/
theorem queue_closed_exactly_once (cap workerCount : Nat) (as : List Action) (a : Action) :
    let s := run (init cap workerCount) as
    s.closes ≤ 1 ∧
    (s.modemQueue.closed = true ↔ s.closes = 1) ∧
    (s.producer = ProducerPC.exited ↔ s.closes = 1) ∧
    s.producer ≠ ProducerPC.panicked ∧
    ((step s a).closes ≠ s.closes →
      (∃ src pick, a = Action.producer src pick) ∧ s.shutdown = true ∧
      s.modemQueue.closed = false ∧ (step s a).closes = s.closes + 1 ∧
      (step s a).modemQueue.closed = true ∧ (step s a).producer = ProducerPC.exited) ∧
    ((step s a).modemQueue.closed ≠ s.modemQueue.closed → (step s a).closes ≠ s.closes) ∧
    (s.producer = ProducerPC.exited →
      ∀ (src : message × Option String) (pick : Bool),
        step s (Action.producer src pick) = s) ∧
    (s.producer = ProducerPC.top → s.shutdown = true →
      ∀ (src : message × Option String) (pick : Bool),
        step s (Action.producer src pick) = closedAndReturned s) ∧
    (∀ (modemID : String) (rest : List String),
      s.producer = ProducerPC.pass (modemID :: rest) → s.shutdown = true →
      ∀ (msg : message) (pick : Bool),
        pick = false ∨ s.modemQueue.cap ≤ s.modemQueue.buf.length →
        step s (Action.producer (msg, none) pick) = closedAndReturned s) ∧
    (s.shutdown = true → ∀ sched : List Action, pending s.producer ≤ producerMoves sched →
      (run s sched).producer = ProducerPC.exited ∧ (run s sched).closes = 1 ∧
      (run s sched).modemQueue.closed = true) := by
  intro s
  have h : Inv s := inv_reachable cap workerCount as
  have ht : Inv (step s a) := inv_step s a h
  have hc := h.closesEq
  have hiff : s.modemQueue.closed = true ↔ s.closes = 1 := by
    rw [hc]; cases s.modemQueue.closed <;> simp
  refine ⟨?_, hiff, h.closedIff.symm.trans hiff, h.noPanic, ?_, ?_, ?_, ?_, ?_, ?_⟩
  · rw [hc]; split <;> simp
  · intro hne
    rcases step_closes h a with he | he
    · exact absurd he hne
    · exact he
  · intro hne heq
    apply hne
    have e1 := ht.closesEq
    rw [heq, hc] at e1
    cases h1 : (step s a).modemQueue.closed <;> cases h2 : s.modemQueue.closed <;>
      simp [h1, h2] at e1 ⊢
  · intro hp src pick
    cases hh : s.halted with
    | true => exact step_halted _ hh
    | false => rw [step_producer_running src pick hh]; exact stepProducer_exited src pick hp
  · intro hp hs src pick
    exact step_top_closes h src pick hp hs
  · intro modemID rest hp hs msg pick hpick
    exact step_select_closes h msg hp hs hpick
  · intro hs sched hle
    have hr : Inv (run s sched) := inv_run sched s h
    have hex := exited_of_pending hr (run_pending sched s h hs hle)
    have hcl : (run s sched).modemQueue.closed = true := hr.closedIff.mpr hex
    refine ⟨hex, ?_, hcl⟩
    have := hr.closesEq
    rw [hcl] at this
    simpa using this

/-- C10 on two runs.  Shutdown is signalled while the producer stands at line
58: its next move closes the queue and returns, and `close` has run once.
Shutdown is signalled while the producer is in its pass and the receive from
`shutdown` runs at the `select` of line 79: the same. -/
theorem queue_closed_exactly_once_witness :
    ((run (run (init 100 3) [Action.signal]) [Action.producer getMessage true]).producer
        = ProducerPC.exited ∧
      (run (run (init 100 3) [Action.signal]) [Action.producer getMessage true]).closes = 1 ∧
      (run (run (init 100 3) [Action.signal])
        [Action.producer getMessage true]).modemQueue.closed = true) ∧
    (step (run (init 100 3)
        [Action.discovery ⟨none, "/Modem/0 a\n", fun _ => none⟩,
         Action.producer getMessage true,
         Action.signal]) (Action.producer (getMessage.1, none) false)).closes = 1 :=
  ⟨(queue_closed_exactly_once 100 3 [Action.signal] Action.main).2.2.2.2.2.2.2.2.2
      (by decide) [Action.producer getMessage true] (by decide),
   congrArg State.closes
     ((queue_closed_exactly_once 100 3
        [Action.discovery ⟨none, "/Modem/0 a\n", fun _ => none⟩,
         Action.producer getMessage true,
         Action.signal] Action.main).2.2.2.2.2.2.2.2.1 "/Modem/0" [] (by decide) (by decide)
        getMessage.1 false (Or.inl rfl))⟩

end Otppc
